import Mathlib

/-
  Verification development for the leave-balance lambda adapter
  (src/lambda_function.py).

  The Python program is shallowly embedded:
  * Python/JSON values are the inductive type PyVal (floats are modelled as
    exact decimal numbers m / 10 ^ e in a canonical form, since the program
    only ever parses and prints floats and never computes with them);
  * exceptions are modelled with Except String;
  * the DynamoDB client is an oracle (structure Store) describing the result
    of describe_table, scan and get_item, and the handler additionally
    returns the list of store calls it performed;
  * json.dumps / json.loads are modelled by an executable encoder and a
    fuel-indexed executable parser over lists of characters.

  Known deliberate simplifications of library behaviour, each noted at the
  definition it concerns: strings are treated as sequences of Unicode scalar
  values (no lone surrogates); int()/float() accept ASCII digits only
  (Python additionally accepts some non-ASCII digit characters, underscores
  and surrounding whitespace); str.isdigit is modelled exactly on ASCII
  characters and on the non-ASCII digit-class characters listed at
  pyCharIsdigit, and returns false on all other non-ASCII characters (an
  under-approximation of Python; statements relying on a negative isdigit
  answer restrict the identifier to ASCII); repr of floats does not switch
  to exponent notation for very large or very small values; and the JSON
  parser accepts redundant leading zeros and rejects NaN/Infinity literals.
-/

namespace ETA

/-- A Python value as it can occur in this program: everything that can come
out of a JSON document. Floats are exact decimals: `float m e` denotes
m / 10 ^ e; values produced by the program keep the canonical form
(1 ≤ e, and the last mantissa digit is nonzero unless e = 1). -/
inductive PyVal where
  | str (s : String)
  | int (n : Int)
  | float (m : Int) (e : Nat)
  | bool (b : Bool)
  | null
  | list (xs : List PyVal)
  | dict (kvs : List (String × PyVal))

/-- An inbound lambda event, modelled as a JSON object: a mapping from
string keys to values. -/
abbrev Event := List (String × PyVal)

/-- The opening brace character, kept as a named definition. -/
def lbrace : Char := Char.ofNat 123

/-- The closing brace character, kept as a named definition. -/
def rbrace : Char := Char.ofNat 125

/-- The single-quote character used by Python repr. -/
def squote : Char := Char.ofNat 39

/- ### Decimal digits -/

/-- The character for a single decimal digit. -/
def digitChar (d : Nat) : Char :=
  if d = 0 then '0' else if d = 1 then '1' else if d = 2 then '2'
  else if d = 3 then '3' else if d = 4 then '4' else if d = 5 then '5'
  else if d = 6 then '6' else if d = 7 then '7' else if d = 8 then '8'
  else if d = 9 then '9' else '0'

/-- Little-endian digit list of a natural number; the first argument is
fuel (any fuel ≥ n is enough). -/
def natDigitsLEAux : Nat → Nat → List Nat
  | 0, _ => []
  | fuel+1, n => if n = 0 then [] else (n % 10) :: natDigitsLEAux fuel (n / 10)

/-- Little-endian digit list of a natural number (empty for 0). -/
def natDigitsLE (n : Nat) : List Nat := natDigitsLEAux n n

/-- Big-endian digit list of a natural number, [0] for 0. -/
def bigDigits (n : Nat) : List Nat :=
  if n = 0 then [0] else (natDigitsLE n).reverse

/-- Exactly `e` little-endian digits of n (n is taken mod 10 ^ e). -/
def natLEPad : Nat → Nat → List Nat
  | 0, _ => []
  | e+1, n => (n % 10) :: natLEPad e (n / 10)

/-- Decimal character representation of a natural number. -/
def natChars (n : Nat) : List Char := (bigDigits n).map digitChar

/-- Decimal character representation of an integer (with a leading minus
sign when negative), as printed by both json.dumps and str(). -/
def intChars (n : Int) : List Char :=
  (if n < 0 then ['-'] else []) ++ natChars n.natAbs

/-- Decimal character representation of the float m / 10 ^ e: integer part,
a decimal point, and exactly e fraction digits. -/
def floatChars (m : Int) (e : Nat) : List Char :=
  (if m < 0 then ['-'] else []) ++
    natChars (m.natAbs / 10 ^ e) ++
    '.' :: ((natLEPad e (m.natAbs % 10 ^ e)).reverse.map digitChar)

/-- Value of a little-endian digit list. -/
def valLE : List Nat → Nat
  | [] => 0
  | d :: ds => d + 10 * valLE ds

/-- Read a maximal run of decimal digits, accumulating the value and the
number of digits consumed. -/
def readDigitsCnt : List Char → Nat → Nat → Nat × Nat × List Char
  | [], acc, cnt => (acc, cnt, [])
  | c :: cs, acc, cnt =>
    if c.isDigit then readDigitsCnt cs (acc * 10 + (c.toNat - 48)) (cnt + 1)
    else (acc, cnt, c :: cs)

/- ### Canonical floats -/

/-- Drop trailing zero digits of the mantissa while more than one fraction
digit remains; the first argument is fuel (e is always enough). -/
def stripZerosAux : Nat → Int → Nat → Int × Nat
  | 0, m, e => (m, e)
  | fuel+1, m, e =>
    if e ≤ 1 then (m, e)
    else if m % 10 = 0 then stripZerosAux fuel (m / 10) (e - 1)
    else (m, e)

/-- Canonical float from a signed mantissa and a scale: the value is
m0 / 10 ^ scale (scale may be negative, meaning multiplication). The
result always has at least one fraction digit, mirroring how Python
prints every float with a decimal point. -/
def mkFloatPair (m0 : Int) (scale : Int) : Int × Nat :=
  if scale ≤ 0 then (m0 * 10 ^ (-scale).toNat * 10, 1)
  else stripZerosAux scale.toNat m0 scale.toNat

/-- The canonical-form predicate for modelled floats (as a Bool). -/
def floatCanon (m : Int) (e : Nat) : Bool :=
  1 ≤ e && (e = 1 || m % 10 != 0)

/- ### Python int() and float()

Modelled for ASCII digit strings: Python additionally strips surrounding
whitespace, accepts underscores between digits and non-ASCII decimal
digits, and float() also accepts inf/nan spellings; none of those inputs
occur in this program's data. -/

/-- Python int(s) on a string: optional sign followed by digits. -/
def pyIntParse (s : String) : Option Int :=
  let p : Bool × List Char :=
    match s.toList with
    | '-' :: t => (true, t)
    | '+' :: t => (false, t)
    | cs => (false, cs)
  match readDigitsCnt p.2 0 0 with
  | (v, cnt, rest) =>
    if cnt = 0 || !rest.isEmpty then Option.none
    else some (if p.1 then -(v : Int) else (v : Int))

/-- Optional exponent part of a decimal literal: returns the exponent (if
present) and the rest of the input. -/
def parseExpOpt (cs : List Char) : Except String (Option Int × List Char) :=
  if cs.head? == some 'e' || cs.head? == some 'E' then
    let cs1 := cs.tail
    let eneg : Bool := cs1.head? == some '-'
    let cs2 := if cs1.head? == some '-' || cs1.head? == some '+' then cs1.tail else cs1
    if (cs2.head?.map Char.isDigit).getD false then
      let r := readDigitsCnt cs2 0 0
      .ok (some (if eneg then -(r.1 : Int) else (r.1 : Int)), r.2.2)
    else .error "Expecting exponent digits"
  else .ok (Option.none, cs)

/-- Python float(s): sign, digits, optional fraction, optional exponent;
the whole string must be consumed. Returns the canonical decimal pair. -/
def pyFloatParse (s : String) : Option (Int × Nat) :=
  let p : Bool × List Char :=
    match s.toList with
    | '-' :: t => (true, t)
    | '+' :: t => (false, t)
    | cs => (false, cs)
  match readDigitsCnt p.2 0 0 with
  | (ip, c1, cs2) =>
    let q : Nat × Nat × List Char :=
      match cs2 with
      | '.' :: t => readDigitsCnt t 0 0
      | _ => (0, 0, cs2)
    match q with
    | (fp, c2, cs3) =>
      if c1 + c2 = 0 then Option.none
      else
        match parseExpOpt cs3 with
        | .error _ => Option.none
        | .ok (ex, cs4) =>
          if cs4.isEmpty then
            let mant : Nat := ip * 10 ^ c2 + fp
            let m0 : Int := if p.1 then -(mant : Int) else (mant : Int)
            some (mkFloatPair m0 ((c2 : Int) - (ex.getD 0)))
          else Option.none

/-- Python str.isdigit is character-wise: a character passes exactly when
its Unicode Numeric_Type is Digit or Decimal. Among ASCII characters
those are precisely the decimal digits 0-9; beyond ASCII the model lists
the superscript digits U+00B2, U+00B3, U+00B9 (Numeric_Type Digit, code
points 178, 179, 185) and the Arabic-Indic decimal digits U+0660-U+0669
(Numeric_Type Decimal, code points 1632-1641), and returns false on every
other character. This under-approximates Python outside the listed set
(e.g. Devanagari digits also pass in Python); it is exact on strings over
ASCII and the listed characters. -/
def pyCharIsdigit (c : Char) : Bool :=
  c.isDigit || c.toNat == 178 || c.toNat == 179 || c.toNat == 185 ||
    (1632 ≤ c.toNat && c.toNat ≤ 1641)

/-- Python str.isdigit on a string: non-empty and every character passes
the character-wise test. -/
def pyIsdigit (s : String) : Bool :=
  !s.toList.isEmpty && s.toList.all pyCharIsdigit

/- ### JSON string escaping (json.dumps with its default ensure_ascii) -/

/-- Lower-case hex digit character. -/
def hexDig (d : Nat) : Char :=
  match d with
  | 0 => '0' | 1 => '1' | 2 => '2' | 3 => '3' | 4 => '4'
  | 5 => '5' | 6 => '6' | 7 => '7' | 8 => '8' | 9 => '9'
  | 10 => 'a' | 11 => 'b' | 12 => 'c' | 13 => 'd' | 14 => 'e' | 15 => 'f'
  | _ => '0'

/-- Four hex digits of a number below 0x10000. -/
def hex4 (n : Nat) : List Char :=
  [hexDig (n / 4096 % 16), hexDig (n / 256 % 16), hexDig (n / 16 % 16), hexDig (n % 16)]

/-- A backslash-u escape; code points beyond the basic plane become a
surrogate pair, exactly as json.dumps emits them. -/
def uEsc (n : Nat) : List Char :=
  if n < 65536 then '\\' :: 'u' :: hex4 n
  else
    '\\' :: 'u' :: hex4 (55296 + (n - 65536) / 1024) ++
      '\\' :: 'u' :: hex4 (56320 + (n - 65536) % 1024)

/-- json.dumps escaping of one character: the two-character escapes for
quote, backslash and the named control characters, backslash-u escapes
for every other character outside the printable ASCII range 0x20-0x7E,
and the character itself otherwise. -/
def escChar (c : Char) : List Char :=
  if c = '"' then ['\\', '"']
  else if c = '\\' then ['\\', '\\']
  else if c = Char.ofNat 8 then ['\\', 'b']
  else if c = '\t' then ['\\', 't']
  else if c = '\n' then ['\\', 'n']
  else if c = Char.ofNat 12 then ['\\', 'f']
  else if c = Char.ofNat 13 then ['\\', 'r']
  else if c.toNat < 32 || 127 ≤ c.toNat then uEsc c.toNat
  else [c]

/-- Escaped body of a JSON string literal. -/
def escBody (s : List Char) : List Char := (s.map escChar).flatten

/-- A complete JSON string literal for s. -/
def jstring (s : String) : List Char := '"' :: escBody s.toList ++ ['"']

/-- Value of a hex digit character (either case), if it is one. -/
def hexVal (c : Char) : Option Nat :=
  if '0' ≤ c ∧ c ≤ '9' then some (c.toNat - 48)
  else if 'a' ≤ c ∧ c ≤ 'f' then some (c.toNat - 87)
  else if 'A' ≤ c ∧ c ≤ 'F' then some (c.toNat - 55)
  else Option.none

/-- Value of four hex digit characters. -/
def hexQuad (a b c d : Char) : Option Nat :=
  (hexVal a).bind fun x =>
    (hexVal b).bind fun y =>
      (hexVal c).bind fun z =>
        (hexVal d).map fun w => ((x * 16 + y) * 16 + z) * 16 + w

/-- Decode a backslash-u escape after the backslash-u prefix: four hex
digits, combined with a following low-surrogate escape when they form a
high surrogate. (Python json additionally tolerates lone surrogate
escapes, producing surrogate code points; such strings cannot be modelled
as Lean strings and are never produced by the encoder, so the model
rejects them.) -/
def decodeU : List Char → Except String (Char × List Char)
  | h1 :: h2 :: h3 :: h4 :: rest3 =>
    match hexQuad h1 h2 h3 h4 with
    | Option.none => .error "Invalid hex escape"
    | some n =>
      if n < 55296 ∨ 57344 ≤ n then .ok (Char.ofNat n, rest3)
      else if n < 56320 then
        match rest3 with
        | a :: b :: g1 :: g2 :: g3 :: g4 :: rest4 =>
          if a = '\\' ∧ b = 'u' then
            match hexQuad g1 g2 g3 g4 with
            | Option.none => .error "Invalid hex escape"
            | some m =>
              if 56320 ≤ m ∧ m < 57344 then
                .ok (Char.ofNat (65536 + (n - 55296) * 1024 + (m - 56320)), rest4)
              else .error "Unpaired high surrogate"
          else .error "Unpaired high surrogate"
        | _ => .error "Unpaired high surrogate"
      else .error "Unpaired low surrogate"
  | _ => .error "Invalid hex escape"

/-- Decode one escape sequence after the backslash. -/
def decodeEsc : List Char → Except String (Char × List Char)
  | [] => .error "Unterminated string"
  | e :: rest2 =>
    if e = '"' then .ok ('"', rest2)
    else if e = '\\' then .ok ('\\', rest2)
    else if e = '/' then .ok ('/', rest2)
    else if e = 'b' then .ok (Char.ofNat 8, rest2)
    else if e = 'f' then .ok (Char.ofNat 12, rest2)
    else if e = 'n' then .ok ('\n', rest2)
    else if e = 'r' then .ok (Char.ofNat 13, rest2)
    else if e = 't' then .ok ('\t', rest2)
    else if e = 'u' then decodeU rest2
    else .error "Invalid escape"

/-- Body of a JSON string literal after the opening quote, in strict mode:
raw control characters are rejected and escapes are decoded. The first
argument is fuel; input length + 1 is enough. -/
def parseStrChars : Nat → List Char → Except String (List Char × List Char)
  | 0, _ => .error "Unterminated string"
  | fuel+1, cs =>
    match cs with
    | [] => .error "Unterminated string"
    | c :: rest =>
      if c = '"' then .ok ([], rest)
      else if c = '\\' then
        match decodeEsc rest with
        | .error e => .error e
        | .ok (d, rest2) => (parseStrChars fuel rest2).map (fun p => (d :: p.1, p.2))
      else if c.toNat < 32 then .error "Invalid control character"
      else (parseStrChars fuel rest).map (fun p => (c :: p.1, p.2))

/-- Parse a JSON string literal body into a String. -/
def parseStrBody (fuel : Nat) (cs : List Char) : Except String (String × List Char) :=
  (parseStrChars fuel cs).map (fun p => (String.mk p.1, p.2))

/- ### JSON numbers -/

/-- Fraction and exponent tail of a number literal, after the integer
part has been read. -/
def parseNumAfterInt (neg : Bool) (ip : Nat) (cs2 : List Char) :
    Except String (PyVal × List Char) :=
  if cs2.head? == some '.' then
    let r := readDigitsCnt cs2.tail 0 0
    if r.2.1 = 0 then .error "Expecting fraction digits"
    else
      match parseExpOpt r.2.2 with
      | .error e => .error e
      | .ok (ex, cs5) =>
        let mant : Nat := ip * 10 ^ r.2.1 + r.1
        let m0 : Int := if neg then -(mant : Int) else (mant : Int)
        let q := mkFloatPair m0 ((r.2.1 : Int) - (ex.getD 0))
        .ok (.float q.1 q.2, cs5)
  else
    match parseExpOpt cs2 with
    | .error e => .error e
    | .ok (Option.none, _) =>
      .ok (.int (if neg then -(ip : Int) else (ip : Int)), cs2)
    | .ok (some ex, cs5) =>
      let m0 : Int := if neg then -(ip : Int) else (ip : Int)
      let q := mkFloatPair m0 (-ex)
      .ok (.float q.1 q.2, cs5)

/-- Parse a JSON number (json.loads). Integers without fraction or exponent
become Python ints; everything else becomes a float. The model accepts
redundant leading zeros, which strict JSON rejects; its output on the
encoder's image is exact. -/
def parseNum (cs : List Char) : Except String (PyVal × List Char) :=
  let neg : Bool := cs.head? == some '-'
  let cs1 := if neg then cs.tail else cs
  if (cs1.head?.map Char.isDigit).getD false then
    let r := readDigitsCnt cs1 0 0
    parseNumAfterInt neg r.1 r.2.2
  else .error "Expecting value"

/- ### json.dumps -/

mutual

/-- json.dumps rendering of one value, with the default separators
(comma-space and colon-space) and ensure_ascii escaping. -/
def dumpsV : PyVal → List Char
  | .str s => jstring s
  | .int n => intChars n
  | .float m e => floatChars m e
  | .bool b => if b then ['t', 'r', 'u', 'e'] else ['f', 'a', 'l', 's', 'e']
  | .null => ['n', 'u', 'l', 'l']
  | .list xs => '[' :: dumpsSeq xs ++ [']']
  | .dict kvs => lbrace :: dumpsEntries kvs ++ [rbrace]

/-- Comma-space separated renderings of array elements. -/
def dumpsSeq : List PyVal → List Char
  | [] => []
  | [v] => dumpsV v
  | v :: w :: vs => dumpsV v ++ ',' :: ' ' :: dumpsSeq (w :: vs)

/-- Comma-space separated renderings of object entries. -/
def dumpsEntries : List (String × PyVal) → List Char
  | [] => []
  | [kv] => jstring kv.1 ++ ':' :: ' ' :: dumpsV kv.2
  | kv :: kw :: kvs =>
    jstring kv.1 ++ ':' :: ' ' :: dumpsV kv.2 ++ ',' :: ' ' :: dumpsEntries (kw :: kvs)

end

/-- json.dumps as a function on strings. -/
def jsonDumps (v : PyVal) : String := String.mk (dumpsV v)

/- ### json.loads -/

/-- JSON whitespace. -/
def isWsChar (c : Char) : Bool := c = ' ' || c = '\t' || c = '\n' || c = Char.ofNat 13

/-- Skip JSON whitespace. -/
def skipWs : List Char → List Char
  | [] => []
  | c :: cs => if isWsChar c then skipWs cs else c :: cs

/-- A pending container while parsing. -/
inductive JFrame where
  | arr (acc : List PyVal)
  | obj (acc : List (String × PyVal)) (key : String)

/-- The json.loads machine. With mode Option.none it parses one value from
the input; with mode some v it has just finished the value v and resolves
it against the innermost pending container. Duplicate object keys are kept
in order (a Python dict would keep only the last; actual Python dicts never
produce duplicates). The first argument is fuel; jsonLoadsPy supplies
2 * length + 4, which covers one step per value plus one per separator. -/
def jloop : Nat → Option PyVal → List JFrame → List Char → Except String (PyVal × List Char)
  | 0, _, _, _ => .error "Input too deeply nested"
  | fuel+1, Option.none, stack, cs =>
    match skipWs cs with
    | [] => .error "Expecting value"
    | c :: rest =>
      if c = '"' then
        match parseStrBody (rest.length + 1) rest with
        | .error e => .error e
        | .ok (s, rest2) => jloop fuel (some (.str s)) stack rest2
      else if c = lbrace then
        let r2 := skipWs rest
        match r2 with
        | [] => .error "Expecting property name"
        | c2 :: r3 =>
          if c2 = rbrace then jloop fuel (some (.dict [])) stack r3
          else if c2 = '"' then
            match parseStrBody (r3.length + 1) r3 with
            | .error e => .error e
            | .ok (k, r4) =>
              match skipWs r4 with
              | ':' :: r5 => jloop fuel Option.none (JFrame.obj [] k :: stack) r5
              | _ => .error "Expecting colon"
          else .error "Expecting property name"
      else if c = '[' then
        let r2 := skipWs rest
        match r2 with
        | ']' :: r3 => jloop fuel (some (.list [])) stack r3
        | _ => jloop fuel Option.none (JFrame.arr [] :: stack) r2
      else if c = 't' then
        match rest with
        | 'r' :: 'u' :: 'e' :: r => jloop fuel (some (.bool true)) stack r
        | _ => .error "Expecting value"
      else if c = 'f' then
        match rest with
        | 'a' :: 'l' :: 's' :: 'e' :: r => jloop fuel (some (.bool false)) stack r
        | _ => .error "Expecting value"
      else if c = 'n' then
        match rest with
        | 'u' :: 'l' :: 'l' :: r => jloop fuel (some .null) stack r
        | _ => .error "Expecting value"
      else
        match parseNum (c :: rest) with
        | .error e => .error e
        | .ok (v, r) => jloop fuel (some v) stack r
  | _+1, some v, [], cs => .ok (v, cs)
  | fuel+1, some v, JFrame.arr acc :: stack, cs =>
    match skipWs cs with
    | [] => .error "Expecting comma or bracket"
    | c :: r =>
      if c = ',' then jloop fuel Option.none (JFrame.arr (v :: acc) :: stack) r
      else if c = ']' then jloop fuel (some (.list (v :: acc).reverse)) stack r
      else .error "Expecting comma or bracket"
  | fuel+1, some v, JFrame.obj acc k :: stack, cs =>
    match skipWs cs with
    | [] => .error "Expecting comma or brace"
    | c :: r =>
      if c = ',' then
        match skipWs r with
        | [] => .error "Expecting property name"
        | c2 :: r2 =>
          if c2 = '"' then
            match parseStrBody (r2.length + 1) r2 with
            | .error e => .error e
            | .ok (k2, r3) =>
              match skipWs r3 with
              | ':' :: r4 => jloop fuel Option.none (JFrame.obj ((k, v) :: acc) k2 :: stack) r4
              | _ => .error "Expecting colon"
          else .error "Expecting property name"
      else if c = rbrace then jloop fuel (some (.dict ((k, v) :: acc).reverse)) stack r
      else .error "Expecting comma or brace"

/-- json.loads: parse one value and require that only whitespace follows. -/
def jsonLoadsPy (s : String) : Except String PyVal :=
  match jloop (2 * s.length + 4) Option.none [] s.toList with
  | .error e => .error e
  | .ok (v, rest) =>
    if (skipWs rest).isEmpty then .ok v else .error "Extra data"

/- ### Python dynamic operations used by the handler -/

/-- Python truthiness of a value. -/
def pyTruthy : PyVal → Bool
  | .str s => !s.isEmpty
  | .int n => n != 0
  | .float m _ => m != 0
  | .bool b => b
  | .null => false
  | .list xs => !xs.isEmpty
  | .dict kvs => !kvs.isEmpty

/-- Python `key in v` for a string key: key test on dicts, membership on
lists (a string equals only an equal string), substring test on strings;
TypeError otherwise. -/
def pyContainsE (v : PyVal) (key : String) : Except String Bool :=
  match v with
  | .dict kvs => .ok (kvs.any (fun p => p.1 == key))
  | .list xs =>
    .ok (xs.any (fun x => match x with | .str s => s == key | _ => false))
  | .str s =>
    .ok ((List.range (s.length + 1)).any
      (fun i => key.toList.isPrefixOf (s.toList.drop i)))
  | _ => .error "argument of type is not iterable"

/-- Python `v[key]` for a string key: dict lookup (KeyError when absent);
TypeError on anything else. -/
def pyGetKey (v : PyVal) (key : String) : Except String PyVal :=
  match v with
  | .dict kvs =>
    match kvs.find? (fun p => p.1 == key) with
    | some p => .ok p.2
    | Option.none => .error (squote.toString ++ key ++ squote.toString)
  | .str _ => .error "string indices must be integers"
  | .list _ => .error "list indices must be integers"
  | _ => .error "object is not subscriptable"

/-- Python `v[0]`: first element of a list or string (IndexError when
empty), KeyError on a dict with string keys, TypeError otherwise. -/
def pyIndexZero (v : PyVal) : Except String PyVal :=
  match v with
  | .list [] => .error "list index out of range"
  | .list (x :: _) => .ok x
  | .str s =>
    match s.toList with
    | [] => .error "string index out of range"
    | c :: _ => .ok (.str (String.mk [c]))
  | .dict _ => .error "0"
  | _ => .error "object is not subscriptable"

/-- Python `v.get(key, default)`: dict lookup with a default;
AttributeError on anything that is not a dict. -/
def pyDictGet (v : PyVal) (key : String) (dflt : PyVal) : Except String PyVal :=
  match v with
  | .dict kvs => .ok (((kvs.find? (fun p => p.1 == key)).map (fun p => p.2)).getD dflt)
  | _ => .error "object has no attribute get"

/-- Python `len(v)`: length of a string, list or dict; TypeError otherwise. -/
def pyLen (v : PyVal) : Except String Nat :=
  match v with
  | .str s => .ok s.length
  | .list xs => .ok xs.length
  | .dict kvs => .ok kvs.length
  | _ => .error "object has no len"

mutual

/-- Python repr of a value. String repr is simplified to plain
single-quote wrapping (the contained strings of this program never hold
quotes or backslashes); float repr never switches to exponent notation. -/
def pyRepr : PyVal → String
  | .str s => squote.toString ++ s ++ squote.toString
  | .int n => String.mk (intChars n)
  | .float m e => String.mk (floatChars m e)
  | .bool b => if b then "True" else "False"
  | .null => "None"
  | .list xs => "[" ++ pyReprSeq xs ++ "]"
  | .dict kvs => lbrace.toString ++ pyReprEntries kvs ++ rbrace.toString

/-- Comma-space separated reprs of list elements. -/
def pyReprSeq : List PyVal → String
  | [] => ""
  | [v] => pyRepr v
  | v :: w :: vs => pyRepr v ++ ", " ++ pyReprSeq (w :: vs)

/-- Comma-space separated reprs of dict entries. -/
def pyReprEntries : List (String × PyVal) → String
  | [] => ""
  | [kv] => squote.toString ++ kv.1 ++ squote.toString ++ ": " ++ pyRepr kv.2
  | kv :: kw :: kvs =>
    squote.toString ++ kv.1 ++ squote.toString ++ ": " ++ pyRepr kv.2 ++ ", " ++
      pyReprEntries (kw :: kvs)

end

/-- Python str(v): identity on strings, repr on everything else (str and
repr agree on ints, floats, bools, None and containers). -/
def pyStr : PyVal → String
  | .str s => s
  | v => pyRepr v

/- ### Event helpers (the event itself is always a dict) -/

/-- Python `key in event` on the top-level event dict. -/
def hasKey (ev : Event) (k : String) : Bool := ev.any (fun p => p.1 == k)

/-- Python `event[key]`, used only under a hasKey guard (so the .null
default is never reached on the guarded paths). -/
def evGet (ev : Event) (k : String) : PyVal :=
  (((ev.find? (fun p => p.1 == k)).map (fun p => p.2))).getD .null

/-- Python `event.get(key, default)`. -/
def evGetD (ev : Event) (k : String) (dflt : PyVal) : PyVal :=
  (((ev.find? (fun p => p.1 == k)).map (fun p => p.2))).getD dflt

/- ### The DynamoDB store oracle -/

/-- One DynamoDB item as returned on the wire: field name to tagged-value
dict, each tagged-value dict in its iteration order (a real item is
non-empty and every tagged-value dict has exactly one tag). -/
abbrev StoredItem := List (String × List (String × String))

/-- Result of the authoritative client.get_item call. -/
inductive GetItemResult where
  | found (item : StoredItem)
  | missing
  | resourceNotFound (msg : String)
  | throughputExceeded (msg : String)
  | accessDenied (msg : String)
  | otherError (msg : String)

/-- The store oracle for one invocation: results of the two diagnostic
probes and of get_item keyed by the identifier string. -/
structure Store where
  describeTable : Except String PyVal
  scanSample : Except String PyVal
  getItem : String → GetItemResult

/-- A store call as recorded in the handler trace, with the result the
store gave (probe results are only ever logged by the handler). -/
inductive StoreCall where
  | describeTable (result : Except String PyVal)
  | scanSample (limit : Nat) (result : Except String PyVal)
  | getItemCall (key : String)

/- ### Value Decoder (lines 128-151) -/

/-- Decode one tagged-value dict: take the first tag in iteration order
(IndexError on an empty dict, caught only at the top level); tag N tries
int when the payload has no decimal point and float otherwise, keeping the
raw string on a parse failure; any other tag passes the payload through. -/
def decodeField (vd : List (String × String)) : Except String PyVal :=
  match vd with
  | [] => .error "list index out of range"
  | (tag, raw) :: _ =>
    if tag = "N" then
      if !(raw.toList.contains '.') then
        match pyIntParse raw with
        | some n => .ok (.int n)
        | Option.none => .ok (.str raw)
      else
        match pyFloatParse raw with
        | some q => .ok (.float q.1 q.2)
        | Option.none => .ok (.str raw)
    else .ok (.str raw)

/-- Decode a stored item field by field, in order (the item models a
Python dict, so its keys are distinct). -/
def decodeRecord : StoredItem → Except String (List (String × PyVal))
  | [] => .ok []
  | (k, vd) :: fs =>
    match decodeField vd with
    | .error e => .error e
    | .ok v =>
      match decodeRecord fs with
      | .error e => .error e
      | .ok r => .ok ((k, v) :: r)

/- ### Input Resolver (lines 13-44) -/

/-- The ValueError message raised when no identifier was extracted. -/
def msgNotFound : String := "Employee ID not found in the request"

/-- The guard of the first extraction branch:
requestBody in event and content in event[requestBody]. -/
def rbGuard (ev : Event) : Except String Bool :=
  if hasKey ev "requestBody" then pyContainsE (evGet ev "requestBody") "content"
  else .ok false

/-- Body of the first extraction branch (lines 18-22), given the guard
held: the value of the first request-body property, or None. -/
def rbValue (ev : Event) : Except String PyVal :=
  match pyGetKey (evGet ev "requestBody") "content" with
  | .error e => .error e
  | .ok content =>
    match pyContainsE content "application/json" with
    | .error e => .error e
    | .ok hasAJ =>
      if hasAJ then
        match pyGetKey content "application/json" with
        | .error e => .error e
        | .ok aj =>
          match pyDictGet aj "properties" (.list []) with
          | .error e => .error e
          | .ok props =>
            if pyTruthy props then
              match pyLen props with
              | .error e => .error e
              | .ok n =>
                if n > 0 then
                  match pyIndexZero props with
                  | .error e => .error e
                  | .ok p0 => pyDictGet p0 "value" .null
                else .ok .null
            else .ok .null
      else .ok .null

/-- Body of the second extraction branch (lines 25-27): parse the body if
it is a string, then .get the empID field. -/
def bodyValue (ev : Event) : Except String PyVal :=
  match
    (match evGet ev "body" with
     | .str s => jsonLoadsPy s
     | v => .ok v) with
  | .error e => .error e
  | .ok bc => pyDictGet bc "empID" .null

/-- Lines 15-31: the raw extracted value (None when nothing was found).
The second branch is an elif of the first branch's guard; the third
branch fires whenever the value is still None and a top-level empID
exists. -/
def extractRaw (ev : Event) : Except String PyVal :=
  match rbGuard ev with
  | .error e => .error e
  | .ok g =>
    match
      (if g then rbValue ev
       else if hasKey ev "body" then bodyValue ev
       else .ok PyVal.null) with
    | .error e => .error e
    | .ok u =>
      match u with
      | PyVal.null => .ok (if hasKey ev "empID" then evGet ev "empID" else PyVal.null)
      | v => .ok v

/-- Lines 15-44: extract, coerce to str, and raise ValueError when the
result is missing or empty. -/
def resolveId (ev : Event) : Except String String :=
  match extractRaw ev with
  | .error e => .error e
  | .ok u =>
    match u with
    | PyVal.null => .error msgNotFound
    | v => if pyStr v = "" then .error msgNotFound else .ok (pyStr v)

/- ### Envelope Formatter (lines 168-207) -/

/-- The error-payload dict with a single error string. -/
def errObj (msg : String) : PyVal := .dict [("error", .str msg)]

/-- format_response: agent action envelope when the event carries both
agent and actionGroup, API-gateway envelope otherwise. -/
def format_response (ev : Event) (body_content : PyVal) (status_code : Nat) : PyVal :=
  let response_body : PyVal :=
    .dict [("application/json", .dict [("body", .str (jsonDumps body_content))])]
  if hasKey ev "agent" && hasKey ev "actionGroup" then
    .dict [("messageVersion", .str "1.0"),
           ("response", .dict
             [("actionGroup", evGetD ev "actionGroup" (.str "")),
              ("apiPath", evGetD ev "apiPath" (.str "")),
              ("httpMethod", evGetD ev "httpMethod" (.str "GET")),
              ("httpStatusCode", .int (status_code : Int)),
              ("responseBody", response_body)]),
           ("sessionAttributes", evGetD ev "sessionAttributes" (.dict [])),
           ("promptSessionAttributes", evGetD ev "promptSessionAttributes" (.dict []))]
  else
    .dict [("statusCode", .int (status_code : Int)),
           ("headers", .dict
             [("Content-Type", .str "application/json"),
              ("Access-Control-Allow-Origin", .str "*")]),
           ("body", .str (jsonDumps body_content))]

/- ### Handler (lines 7-166) -/

/-- The handler body inside the outermost try (lines 8-158): either a
formatted envelope, or an uncaught exception message, together with the
trace of store calls. The describe_table and scan probes are wrapped in
their own try blocks whose except clauses only log, so their results
appear only in the trace. -/
def handlerCore (ev : Event) (store : Store) : Except String PyVal × List StoreCall :=
  match resolveId ev with
  | .error e => (.error e, [])
  | .ok uid =>
    if pyIsdigit uid then
      let probes : List StoreCall :=
        [StoreCall.describeTable store.describeTable,
         StoreCall.scanSample 5 store.scanSample,
         StoreCall.getItemCall uid]
      match store.getItem uid with
      | .resourceNotFound _ =>
        (.ok (format_response ev (errObj "DynamoDB table leaveBalanceHRTable not found") 404), probes)
      | .throughputExceeded _ =>
        (.ok (format_response ev
          (errObj "Database is currently experiencing high traffic. Please try again later.") 429), probes)
      | .accessDenied _ =>
        (.ok (format_response ev
          (errObj "The function does not have permission to access the leave balance database") 403), probes)
      | .otherError msg =>
        (.ok (format_response ev (errObj ("Failed to retrieve employee data: " ++ msg)) 500), probes)
      | .missing =>
        (.ok (format_response ev
          (errObj ("Employee with ID " ++ uid ++ " not found in the leave balance database")) 404), probes)
      | .found item =>
        if item.isEmpty then
          (.ok (format_response ev
            (errObj "An unexpected error occurred while processing the leave balance data") 500), probes)
        else
          match decodeRecord item with
          | .error e => (.error e, probes)
          | .ok readable => (.ok (format_response ev (.dict readable) 200), probes)
    else
      (.ok (format_response ev
        (errObj ("Invalid employee ID format: " ++ uid ++ ". Employee ID must be numeric.")) 400), [])

/-- lambda_handler: the outermost try/except converts any uncaught
exception into an Internal server error envelope with status 500. -/
def lambda_handler (ev : Event) (store : Store) : PyVal × List StoreCall :=
  ((match (handlerCore ev store).1 with
    | .ok env => env
    | .error e => format_response ev (errObj ("Internal server error: " ++ e)) 500),
   (handlerCore ev store).2)

/- ### Concrete events and stores used in witnesses -/

/-- A store whose get_item finds nothing and whose probes succeed. -/
def storeMissing : Store :=
  { describeTable := .ok .null, scanSample := .ok (.dict []), getItem := fun _ => .missing }

/-- A store identical to storeMissing except that both probes fail. -/
def storeMissingProbesFail : Store :=
  { describeTable := .error "describe boom", scanSample := .error "scan boom",
    getItem := fun _ => .missing }

/-- A store whose get_item finds an item one of whose tagged-value dicts
is empty. -/
def storeEmptyTag : Store :=
  { describeTable := .ok .null, scanSample := .ok (.dict []),
    getItem := fun _ => .found [("empID", [("N", "77")]), ("bad", [])] }

/-- A store whose get_item finds a well-formed item. -/
def storeFound : Store :=
  { describeTable := .ok .null, scanSample := .ok (.dict []),
    getItem := fun _ =>
      .found [("empID", [("N", "12345")]), ("balance", [("N", "3.50")]),
              ("name", [("S", "Ana")])] }

/-- The superscript-two character U+00B2 (code point 178): not a decimal
digit (int() on it raises ValueError), but its Unicode Numeric_Type is
Digit, so Python str.isdigit accepts it. -/
def sup2 : Char := Char.ofNat 178

/-- An event whose top-level empID is the single superscript-two
character. -/
def sup2Event : Event := [("empID", PyVal.str (String.mk [sup2]))]

/-- The status code slot of a gateway envelope. -/
def envStatus (env : PyVal) : PyVal :=
  match env with
  | .dict kvs => evGetD kvs "statusCode" .null
  | _ => .null

/-- Does an envelope have the agent action shape (a messageVersion key)? -/
def envIsAgent (env : PyVal) : Bool :=
  match env with
  | .dict kvs => kvs.any (fun p => p.1 == "messageVersion")
  | _ => false

/-- Modelled from the words of claim C6 (for the refinement comparison, not
from the source): try the three event shapes in fixed priority order —
agent request-body properties, then the parsed body field's empID, then
top-level empID — stop at the first shape that yields a value, and coerce
a found value with str. -/
def specResolveId (ev : Event) : Except String (Option String) :=
  match rbGuard ev with
  | .error e => .error e
  | .ok g =>
    match (if g then rbValue ev else .ok PyVal.null) with
    | .error e => .error e
    | .ok v1 =>
      match v1 with
      | PyVal.null =>
        match (if hasKey ev "body" then bodyValue ev else .ok PyVal.null) with
        | .error e => .error e
        | .ok v2 =>
          match v2 with
          | PyVal.null =>
            match (if hasKey ev "empID" then evGet ev "empID" else PyVal.null) with
            | PyVal.null => .ok Option.none
            | v => .ok (some (pyStr v))
          | v => .ok (some (pyStr v))
      | v => .ok (some (pyStr v))

/-- The three canonical event shapes carrying the same identifier value. -/
def agentEvent (v : PyVal) : Event :=
  [("requestBody", .dict [("content", .dict
     [("application/json", .dict [("properties", .list [.dict [("value", v)]])])])])]

/-- The direct-HTTP shape with a non-string body document. -/
def bodyEvent (v : PyVal) : Event := [("body", .dict [("empID", v)])]

/-- The top-level empID shape. -/
def topEvent (v : PyVal) : Event := [("empID", v)]

/-- The JSON text of a body whose empID is the string 7. -/
def bodyJson7 : String :=
  String.mk ([lbrace, '"', 'e', 'm', 'p', 'I', 'D', '"', ':', ' ', '"', '7', '"', rbrace])

/-- An event whose first-branch guard holds (requestBody with content) but
whose request body yields no value, while a body field carries empID 7:
the code skips the body branch entirely because of the elif. -/
def cexEvent : Event :=
  [("requestBody", .dict [("content", .dict [])]), ("body", .str bodyJson7)]

/-- Is this value a flat scalar in canonical form (an int, a string, or a
canonical float)? Exactly the field values a DecodedRecord can hold. -/
def scalarCanonB : PyVal → Bool
  | .int _ => true
  | .str _ => true
  | .float m e => floatCanon m e
  | _ => false

/-- The rendering of the remaining entries of an object after the first
one, ending with the closing brace. -/
def entriesTail : List (String × PyVal) → List Char
  | [] => [rbrace]
  | kv :: kvs => ',' :: ' ' :: ((jstring kv.1 ++ ':' :: ' ' :: dumpsV kv.2) ++ entriesTail kvs)

/-- The input before the parse head is not a digit (used to delimit
numeric literals). -/
def noDigitHead : List Char → Prop
  | [] => True
  | c :: _ => c.isDigit = false

/-- The input head cannot continue a numeric literal. -/
def numStop : List Char → Prop
  | [] => True
  | c :: _ => c.isDigit = false ∧ c ≠ '.' ∧ c ≠ 'e' ∧ c ≠ 'E'

/- ### Lemmas: decimal digits -/

theorem digitChar_isDigit (d : Nat) : (digitChar d).isDigit = true := by
  unfold digitChar
  split_ifs <;> decide

theorem digitChar_toNat (d : Nat) (h : d < 10) : (digitChar d).toNat = 48 + d := by
  interval_cases d <;> decide

theorem digitChar_sub48 (d : Nat) (h : d < 10) : (digitChar d).toNat - 48 = d := by
  rw [digitChar_toNat d h]; omega

theorem valLE_natDigitsLEAux (fuel : Nat) :
    ∀ n, n ≤ fuel → valLE (natDigitsLEAux fuel n) = n := by
  induction fuel with
  | zero => intro n h; interval_cases n; simp [natDigitsLEAux, valLE]
  | succ f ih =>
    intro n h
    by_cases h0 : n = 0
    · subst h0; simp [natDigitsLEAux, valLE]
    · have hdiv : n / 10 ≤ f := by omega
      simp only [natDigitsLEAux, h0, if_false, valLE, ih (n / 10) hdiv]
      omega

theorem valLE_natDigitsLE (n : Nat) : valLE (natDigitsLE n) = n :=
  valLE_natDigitsLEAux n n le_rfl

theorem natDigitsLEAux_lt (fuel : Nat) :
    ∀ n d, d ∈ natDigitsLEAux fuel n → d < 10 := by
  induction fuel with
  | zero => intro n d h; simp [natDigitsLEAux] at h
  | succ f ih =>
    intro n d h
    by_cases h0 : n = 0
    · subst h0; simp [natDigitsLEAux] at h
    · simp only [natDigitsLEAux, h0, if_false, List.mem_cons] at h
      rcases h with h | h
      · omega
      · exact ih _ _ h

theorem bigDigits_lt (n : Nat) : ∀ d ∈ bigDigits n, d < 10 := by
  intro d h
  unfold bigDigits at h
  by_cases h0 : n = 0
  · simp [h0] at h; omega
  · simp only [h0, if_false, List.mem_reverse] at h
    exact natDigitsLEAux_lt n n d h

theorem foldl_digits_reverse (ds : List Nat) (acc : Nat) :
    (ds.reverse).foldl (fun a d => a * 10 + d) acc = acc * 10 ^ ds.length + valLE ds := by
  induction ds generalizing acc with
  | nil => simp [valLE]
  | cons d ds ih =>
    simp only [List.reverse_cons, List.foldl_append, List.foldl_cons, List.foldl_nil,
      ih acc, valLE, List.length_cons]
    ring

theorem foldl_bigDigits (n : Nat) :
    (bigDigits n).foldl (fun a d => a * 10 + d) 0 = n := by
  unfold bigDigits
  by_cases h0 : n = 0
  · simp [h0]
  · simp only [h0, if_false, foldl_digits_reverse, valLE_natDigitsLE]
    omega

theorem natLEPad_length (e : Nat) : ∀ k, (natLEPad e k).length = e := by
  induction e with
  | zero => intro k; simp [natLEPad]
  | succ f ih => intro k; simp [natLEPad, ih]

theorem natLEPad_lt (e : Nat) : ∀ k d, d ∈ natLEPad e k → d < 10 := by
  induction e with
  | zero => intro k d h; simp [natLEPad] at h
  | succ f ih =>
    intro k d h
    simp only [natLEPad, List.mem_cons] at h
    rcases h with h | h
    · omega
    · exact ih _ _ h

theorem valLE_natLEPad (e : Nat) : ∀ k, valLE (natLEPad e k) = k % 10 ^ e := by
  induction e with
  | zero => intro k; simp [natLEPad, valLE, Nat.mod_one]
  | succ f ih =>
    intro k
    simp only [natLEPad, valLE, ih (k / 10)]
    rw [pow_succ, mul_comm (10 ^ f) 10, Nat.mod_mul]

theorem readDigitsCnt_run (ds : List Nat) (hds : ∀ d ∈ ds, d < 10)
    (rest : List Char) (hrest : noDigitHead rest) :
    ∀ acc cnt, readDigitsCnt (ds.map digitChar ++ rest) acc cnt =
      (ds.foldl (fun a d => a * 10 + d) acc, cnt + ds.length, rest) := by
  induction ds with
  | nil =>
    intro acc cnt
    cases rest with
    | nil => simp [readDigitsCnt]
    | cons c cs =>
      simp only [noDigitHead] at hrest
      simp [readDigitsCnt, hrest]
  | cons d ds ih =>
    intro acc cnt
    have hd : d < 10 := hds d (List.mem_cons_self d ds)
    have hds2 : ∀ x ∈ ds, x < 10 := fun x hx => hds x (List.mem_cons_of_mem d hx)
    have step : readDigitsCnt ((digitChar d :: ds.map digitChar) ++ rest) acc cnt =
        readDigitsCnt (ds.map digitChar ++ rest) (acc * 10 + ((digitChar d).toNat - 48)) (cnt + 1) := by
      simp [readDigitsCnt, digitChar_isDigit d]
    rw [List.map_cons, step, digitChar_sub48 d hd, ih hds2]
    simp only [List.foldl_cons, List.length_cons]
    have harith : cnt + 1 + ds.length = cnt + (ds.length + 1) := by omega
    rw [harith]

/- ### Lemmas: numeric literals round-trip -/

theorem numStop_noDigit (cs : List Char) (h : numStop cs) : noDigitHead cs := by
  cases cs with
  | nil => trivial
  | cons c t => exact h.1

theorem bigDigits_ne_nil (n : Nat) : bigDigits n ≠ [] := by
  unfold bigDigits
  by_cases h0 : n = 0
  · simp [h0]
  · simp only [h0, if_false, ne_eq, List.reverse_eq_nil_iff]
    unfold natDigitsLE
    cases n with
    | zero => omega
    | succ m => simp [natDigitsLEAux]

theorem beq_false_of_ne {α : Type} [BEq α] [LawfulBEq α] {a b : α} (h : a ≠ b) :
    (a == b) = false := by
  rcases hb : (a == b) with _ | _
  · rfl
  · exact absurd (eq_of_beq hb) h

theorem isDigit_beq_false {c x : Char} (hc : c.isDigit = true) (hx : x.isDigit = false) :
    (c == x) = false := by
  apply beq_false_of_ne
  intro he
  rw [he, hx] at hc
  exact Bool.false_ne_true hc

theorem parseExpOpt_stop (cs : List Char) (h : numStop cs) :
    parseExpOpt cs = .ok (Option.none, cs) := by
  unfold parseExpOpt
  cases cs with
  | nil => simp
  | cons c t =>
    obtain ⟨_, _, he, hE⟩ := h
    have h1 : (some c == some 'e') = false :=
      beq_false_of_ne (fun hx => he (Option.some.inj hx))
    have h2 : (some c == some 'E') = false :=
      beq_false_of_ne (fun hx => hE (Option.some.inj hx))
    simp [List.head?_cons, h1, h2]

theorem readDigitsCnt_natChars (n : Nat) (rest : List Char) (h : noDigitHead rest)
    (acc cnt : Nat) :
    readDigitsCnt (natChars n ++ rest) acc cnt =
      ((bigDigits n).foldl (fun a d => a * 10 + d) acc, cnt + (bigDigits n).length, rest) :=
  readDigitsCnt_run (bigDigits n) (bigDigits_lt n) rest h acc cnt

theorem natChars_shape (n : Nat) :
    ∃ d ds, bigDigits n = d :: ds ∧ natChars n = digitChar d :: ds.map digitChar := by
  obtain ⟨d, ds, hd⟩ := List.exists_cons_of_ne_nil (bigDigits_ne_nil n)
  exact ⟨d, ds, hd, by rw [natChars, hd, List.map_cons]⟩

theorem numStop_head_ne_dot (rest : List Char) (h : numStop rest) :
    (rest.head? == some '.') = false := by
  cases rest with
  | nil => rfl
  | cons c t =>
    exact beq_false_of_ne (fun x => h.2.1 (Option.some.inj x))

theorem parseNumAfterInt_stop (neg : Bool) (ip : Nat) (rest : List Char) (h : numStop rest) :
    parseNumAfterInt neg ip rest =
      .ok (.int (if neg then -(ip : Int) else (ip : Int)), rest) := by
  unfold parseNumAfterInt
  rw [numStop_head_ne_dot rest h, parseExpOpt_stop rest h]
  simp

theorem natChars_headDigit (n : Nat) (rest : List Char) :
    (((natChars n ++ rest).head?).map Char.isDigit).getD false = true := by
  obtain ⟨d, ds, _, hnc⟩ := natChars_shape n
  rw [hnc]
  simp [digitChar_isDigit d]

theorem parseNum_intChars (n : Int) (rest : List Char) (h : numStop rest) :
    parseNum (intChars n ++ rest) = .ok (.int n, rest) := by
  by_cases hn : n < 0
  · have hcs : intChars n ++ rest = '-' :: (natChars n.natAbs ++ rest) := by
      simp [intChars, hn]
    rw [hcs]
    unfold parseNum
    simp only [List.head?_cons, beq_self_eq_true, if_true, List.tail_cons,
      natChars_headDigit n.natAbs rest,
      readDigitsCnt_natChars n.natAbs rest (numStop_noDigit rest h) 0 0,
      foldl_bigDigits n.natAbs,
      parseNumAfterInt_stop true n.natAbs rest h]
    have : -((n.natAbs : Nat) : Int) = n := by omega
    rw [this]
  · have hcs : intChars n ++ rest = natChars n.natAbs ++ rest := by
      simp [intChars, hn]
    rw [hcs]
    unfold parseNum
    have hne : ((natChars n.natAbs ++ rest).head? == some '-') = false := by
      obtain ⟨d, ds, _, hnc⟩ := natChars_shape n.natAbs
      rw [hnc]
      simp only [List.cons_append, List.head?_cons]
      exact beq_false_of_ne (fun x => by
        have hd := digitChar_isDigit d
        rw [Option.some.inj x] at hd
        exact absurd hd (by decide))
    simp only [hne, Bool.false_eq_true, if_false,
      natChars_headDigit n.natAbs rest,
      readDigitsCnt_natChars n.natAbs rest (numStop_noDigit rest h) 0 0,
      foldl_bigDigits n.natAbs,
      parseNumAfterInt_stop false n.natAbs rest h]
    have : ((n.natAbs : Nat) : Int) = n := by omega
    rw [this]
    simp

theorem stripZeros_canon (m : Int) (e : Nat) (hc : floatCanon m e = true) :
    stripZerosAux e m e = (m, e) := by
  simp only [floatCanon, Bool.and_eq_true, Bool.or_eq_true, decide_eq_true_eq,
    bne_iff_ne, ne_eq] at hc
  obtain ⟨h1, h2⟩ := hc
  cases e with
  | zero => omega
  | succ f =>
    cases f with
    | zero => simp [stripZerosAux]
    | succ g =>
      rcases h2 with h2 | h2
      · omega
      · have hle : ¬ (g + 1 + 1 ≤ 1) := by omega
        simp [stripZerosAux, hle, h2]

theorem mkFloatPair_canon (m : Int) (e : Nat) (hc : floatCanon m e = true) :
    mkFloatPair m (e : Int) = (m, e) := by
  have h1 : 1 ≤ e := by
    simp only [floatCanon, Bool.and_eq_true, decide_eq_true_eq] at hc
    exact hc.1
  unfold mkFloatPair
  rw [if_neg (by exact_mod_cast by omega : ¬ ((e : Int) ≤ 0))]
  rw [Int.toNat_natCast]
  exact stripZeros_canon m e hc

theorem parseNum_floatChars (m : Int) (e : Nat) (hc : floatCanon m e = true)
    (rest : List Char) (h : numStop rest) :
    parseNum (floatChars m e ++ rest) = .ok (.float m e, rest) := by
  have h1 : 1 ≤ e := by
    simp only [floatCanon, Bool.and_eq_true, decide_eq_true_eq] at hc
    exact hc.1
  have hpow : 0 < 10 ^ e := Nat.pos_pow_of_pos e (by omega)
  set a := m.natAbs with ha
  set ip := a / 10 ^ e with hip
  set fp := a % 10 ^ e with hfp
  set fracCs := (natLEPad e fp).reverse.map digitChar with hfrac
  have hmid : floatChars m e ++ rest =
      (if m < 0 then ['-'] else []) ++ (natChars ip ++ '.' :: (fracCs ++ rest)) := by
    simp only [floatChars, List.append_assoc, List.cons_append]
  have hnds : noDigitHead ('.' :: (fracCs ++ rest)) :=
    (by decide : Char.isDigit '.' = false)
  have hread1 : readDigitsCnt (natChars ip ++ '.' :: (fracCs ++ rest)) 0 0 =
      (ip, 0 + (bigDigits ip).length, '.' :: (fracCs ++ rest)) := by
    rw [readDigitsCnt_natChars ip _ hnds 0 0, foldl_bigDigits ip]
  have hfplt : fp < 10 ^ e := by
    rw [hfp]
    exact Nat.mod_lt a hpow
  have hfrace : readDigitsCnt (fracCs ++ rest) 0 0 = (fp, 0 + e, rest) := by
    rw [hfrac, readDigitsCnt_run ((natLEPad e fp).reverse)
      (fun d hd => natLEPad_lt e fp d (List.mem_reverse.mp hd)) rest (numStop_noDigit rest h) 0 0,
      foldl_digits_reverse, valLE_natLEPad, List.length_reverse, natLEPad_length,
      Nat.zero_mul, Nat.zero_add, Nat.mod_eq_of_lt hfplt]
  have hmant : ip * 10 ^ e + fp = a := by
    rw [hip, hfp, Nat.mul_comm]
    exact Nat.div_add_mod a (10 ^ e)
  have hAI : ∀ neg : Bool, (if neg then -(a : Int) else (a : Int)) = m →
      parseNumAfterInt neg ip ('.' :: (fracCs ++ rest)) = .ok (.float m e, rest) := by
    intro neg hm0
    unfold parseNumAfterInt
    simp only [List.head?_cons, beq_self_eq_true, if_true, List.tail_cons, hfrace,
      Nat.zero_add]
    rw [if_neg (by omega : ¬ (e = 0))]
    rw [parseExpOpt_stop rest h]
    simp only [Option.getD_none, sub_zero, hmant, hm0, mkFloatPair_canon m e hc]
  by_cases hn : m < 0
  · have hcs : floatChars m e ++ rest = '-' :: (natChars ip ++ '.' :: (fracCs ++ rest)) := by
      rw [hmid]
      simp [hn]
    rw [hcs]
    unfold parseNum
    simp only [List.head?_cons, beq_self_eq_true, if_true, List.tail_cons,
      natChars_headDigit ip ('.' :: (fracCs ++ rest)), hread1]
    exact hAI true (by simp; omega)
  · have hcs : floatChars m e ++ rest = natChars ip ++ '.' :: (fracCs ++ rest) := by
      rw [hmid]
      simp [hn]
    rw [hcs]
    unfold parseNum
    have hne : ((natChars ip ++ '.' :: (fracCs ++ rest)).head? == some '-') = false := by
      obtain ⟨d, ds, _, hnc⟩ := natChars_shape ip
      rw [hnc]
      simp only [List.cons_append, List.head?_cons]
      exact beq_false_of_ne (fun x => by
        have hd := digitChar_isDigit d
        rw [Option.some.inj x] at hd
        exact absurd hd (by decide))
    simp only [hne, Bool.false_eq_true, if_false,
      natChars_headDigit ip ('.' :: (fracCs ++ rest)), hread1]
    exact hAI false (by simp; omega)

/- ### Lemmas: JSON string literals round-trip -/

theorem hexVal_hexDig (d : Nat) (h : d < 16) : hexVal (hexDig d) = some d := by
  interval_cases d <;> decide

theorem hexQuad_hexDigs (n : Nat) (h : n < 65536) :
    hexQuad (hexDig (n / 4096 % 16)) (hexDig (n / 256 % 16)) (hexDig (n / 16 % 16))
      (hexDig (n % 16)) = some n := by
  unfold hexQuad
  have harith : ((n / 4096 % 16 * 16 + n / 256 % 16) * 16 + n / 16 % 16) * 16 + n % 16 = n := by
    omega
  rw [hexVal_hexDig _ (by omega), hexVal_hexDig _ (by omega), hexVal_hexDig _ (by omega),
    hexVal_hexDig _ (by omega)]
  simp [harith]

theorem exceptMap_ok {ε α β : Type} (f : α → β) (a : α) :
    Except.map (ε := ε) f (.ok a) = .ok (f a) := rfl

theorem escChar_len_pos (c : Char) : 1 ≤ (escChar c).length := by
  unfold escChar uEsc
  split_ifs <;> simp

theorem charValid (c : Char) : c.toNat < 55296 ∨ (57344 ≤ c.toNat ∧ c.toNat < 1114112) := by
  have h := c.valid
  rcases h with h | ⟨h1, h2⟩
  · left; exact h
  · right; exact ⟨h1, h2⟩

theorem decodeU_bmp (n : Nat) (hlt : n < 65536) (hval : n < 55296 ∨ 57344 ≤ n)
    (rest : List Char) :
    decodeU (hex4 n ++ rest) = .ok (Char.ofNat n, rest) := by
  have hq := hexQuad_hexDigs n hlt
  simp only [hex4, List.cons_append, List.nil_append, decodeU]
  simp [hq, hval]

theorem decodeU_pair (a b c d g1 g2 g3 g4 : Char) (tail : List Char) (n m : Nat)
    (hqh : hexQuad a b c d = some n) (hql : hexQuad g1 g2 g3 g4 = some m)
    (hn : ¬ (n < 55296 ∨ 57344 ≤ n)) (hn2 : n < 56320) (hm : 56320 ≤ m ∧ m < 57344) :
    decodeU (a :: b :: c :: d :: '\\' :: 'u' :: g1 :: g2 :: g3 :: g4 :: tail) =
      .ok (Char.ofNat (65536 + (n - 55296) * 1024 + (m - 56320)), tail) := by
  simp only [decodeU]
  simp [hqh, hql, hn, hn2, hm]

theorem decodeU_astral (n : Nat) (h1 : 65536 ≤ n) (h2 : n < 1114112) (rest : List Char) :
    decodeU (hex4 (55296 + (n - 65536) / 1024) ++
      '\\' :: 'u' :: (hex4 (56320 + (n - 65536) % 1024) ++ rest)) =
      .ok (Char.ofNat n, rest) := by
  set hi := 55296 + (n - 65536) / 1024 with hhi
  set lo := 56320 + (n - 65536) % 1024 with hlo
  have hqh := hexQuad_hexDigs hi (by omega)
  have hql := hexQuad_hexDigs lo (by omega)
  have hnothi : ¬ (hi < 55296 ∨ 57344 ≤ hi) := by omega
  have hcomb : 65536 + (hi - 55296) * 1024 + (lo - 56320) = n := by omega
  have hform : hex4 hi ++ '\\' :: 'u' :: (hex4 lo ++ rest) =
      hexDig (hi / 4096 % 16) :: hexDig (hi / 256 % 16) :: hexDig (hi / 16 % 16) ::
        hexDig (hi % 16) :: '\\' :: 'u' :: hexDig (lo / 4096 % 16) ::
        hexDig (lo / 256 % 16) :: hexDig (lo / 16 % 16) :: hexDig (lo % 16) :: rest := by
    simp [hex4]
  rw [hform, decodeU_pair _ _ _ _ _ _ _ _ rest hi lo hqh hql hnothi (by omega) (by omega),
    hcomb]

theorem decodeEsc_u (rest : List Char) : decodeEsc ('u' :: rest) = decodeU rest := by
  simp [decodeEsc]

theorem psc_close (f : Nat) (rest : List Char) :
    parseStrChars (f+1) ('"' :: rest) = .ok ([], rest) := by
  simp [parseStrChars]

theorem psc_esc (f : Nat) (rest rest2 : List Char) (d : Char)
    (hd : decodeEsc rest = .ok (d, rest2)) :
    parseStrChars (f+1) ('\\' :: rest) =
      Except.map (fun p => (d :: p.1, p.2)) (parseStrChars f rest2) := by
  simp [parseStrChars, hd]

theorem psc_plain (c : Char) (h1 : c ≠ '"') (h2 : c ≠ '\\') (h3 : ¬ c.toNat < 32)
    (f : Nat) (rest : List Char) :
    parseStrChars (f+1) (c :: rest) =
      Except.map (fun p => (c :: p.1, p.2)) (parseStrChars f rest) := by
  simp [parseStrChars, h1, h2, h3]

theorem escChar_decode (c : Char) :
    ∀ rest : List Char,
      (escChar c = [c] ∧ c ≠ '"' ∧ c ≠ '\\' ∧ ¬ c.toNat < 32) ∨
      (∃ tail, escChar c = '\\' :: tail ∧ decodeEsc (tail ++ rest) = .ok (c, rest)) := by
  intro rest
  by_cases h1 : c = '"'
  · subst h1
    right
    exact ⟨['"'], rfl, by simp [decodeEsc]⟩
  · by_cases h2 : c = '\\'
    · subst h2
      right
      exact ⟨['\\'], rfl, by simp [decodeEsc]⟩
    · by_cases h3 : c = Char.ofNat 8
      · subst h3
        right
        exact ⟨['b'], rfl, by simp [decodeEsc]⟩
      · by_cases h4 : c = '\t'
        · subst h4
          right
          exact ⟨['t'], rfl, by simp [decodeEsc]⟩
        · by_cases h5 : c = '\n'
          · subst h5
            right
            exact ⟨['n'], rfl, by simp [decodeEsc]⟩
          · by_cases h6 : c = Char.ofNat 12
            · subst h6
              right
              exact ⟨['f'], rfl, by simp [decodeEsc]⟩
            · by_cases h7 : c = Char.ofNat 13
              · subst h7
                right
                exact ⟨['r'], rfl, by simp [decodeEsc]⟩
              · by_cases h8 : c.toNat < 32 ∨ 127 ≤ c.toNat
                · have hesc : escChar c = uEsc c.toNat := by
                    unfold escChar
                    rw [if_neg h1, if_neg h2, if_neg h3, if_neg h4, if_neg h5, if_neg h6,
                      if_neg h7, if_pos (by simpa using h8)]
                  right
                  by_cases hbmp : c.toNat < 65536
                  · refine ⟨'u' :: hex4 c.toNat, ?_, ?_⟩
                    · rw [hesc]
                      simp [uEsc, hbmp]
                    · have hval : c.toNat < 55296 ∨ 57344 ≤ c.toNat := by
                        rcases charValid c with h | ⟨ha, _⟩
                        · left; exact h
                        · right; exact ha
                      rw [List.cons_append, decodeEsc_u,
                        decodeU_bmp c.toNat hbmp hval rest, Char.ofNat_toNat]
                  · have hn2 : c.toNat < 1114112 := by
                      rcases charValid c with h | ⟨_, hb⟩
                      · omega
                      · exact hb
                    refine ⟨'u' :: (hex4 (55296 + (c.toNat - 65536) / 1024) ++
                      '\\' :: 'u' :: hex4 (56320 + (c.toNat - 65536) % 1024)), ?_, ?_⟩
                    · rw [hesc]
                      unfold uEsc
                      rw [if_neg hbmp]
                      simp [List.cons_append]
                    · rw [List.cons_append, decodeEsc_u, List.append_assoc, List.cons_append,
                        List.cons_append,
                        decodeU_astral c.toNat (by omega) hn2 rest, Char.ofNat_toNat]
                · left
                  have hesc : escChar c = [c] := by
                    unfold escChar
                    rw [if_neg h1, if_neg h2, if_neg h3, if_neg h4, if_neg h5, if_neg h6,
                      if_neg h7, if_neg (by simpa using h8)]
                  exact ⟨hesc, h1, h2, by omega⟩

theorem parseStr_escBody (s : List Char) : ∀ (rest : List Char) (fuel : Nat),
    (escBody s).length + 1 ≤ fuel →
    parseStrChars fuel (escBody s ++ '"' :: rest) = .ok (s, rest) := by
  induction s with
  | nil =>
    intro rest fuel hf
    obtain ⟨f, rfl⟩ : ∃ f, fuel = f + 1 := ⟨fuel - 1, by omega⟩
    rw [show escBody [] = [] from rfl, List.nil_append, psc_close]
  | cons c s ih =>
    intro rest fuel hf
    have hlen : (escBody (c :: s)).length = (escChar c).length + (escBody s).length := by
      simp [escBody]
    obtain ⟨f, rfl⟩ : ∃ f, fuel = f + 1 := ⟨fuel - 1, by omega⟩
    have hfs : (escBody s).length + 1 ≤ f := by
      have hp := escChar_len_pos c
      omega
    have ihx := ih rest f hfs
    have hbody : escBody (c :: s) ++ '"' :: rest = escChar c ++ (escBody s ++ '"' :: rest) := by
      simp [escBody, List.append_assoc]
    rw [hbody]
    rcases escChar_decode c (escBody s ++ '"' :: rest) with
      ⟨hesc, h1, h2, h3⟩ | ⟨tail, hesc, hdec⟩
    · rw [hesc, List.cons_append, List.nil_append, psc_plain c h1 h2 h3 f _, ihx,
        exceptMap_ok]
    · rw [hesc, List.cons_append, psc_esc f _ _ c hdec, ihx, exceptMap_ok]


theorem string_mk_toList (s : String) : String.mk s.toList = s := by
  cases s
  rfl

theorem parseStrBody_run (s : String) (rest : List Char) (fuel : Nat)
    (hf : (escBody s.toList).length + 1 ≤ fuel) :
    parseStrBody fuel (escBody s.toList ++ '"' :: rest) = .ok (s, rest) := by
  unfold parseStrBody
  rw [parseStr_escBody s.toList rest fuel hf]
  rfl

/- ### Lemmas: the json.loads machine on flat records -/

theorem skipWs_cons (c : Char) (cs : List Char) (h : isWsChar c = false) :
    skipWs (c :: cs) = c :: cs := by
  simp [skipWs, h]

theorem skipWs_space (cs : List Char) : skipWs (' ' :: cs) = skipWs cs := by
  simp [skipWs, isWsChar]

theorem jstring_append (k : String) (Y : List Char) :
    jstring k ++ Y = '"' :: (escBody k.toList ++ '"' :: Y) := by
  simp [jstring]

theorem jloop_none_congr (fuel : Nat) (stack : List JFrame) (X Y : List Char)
    (h : skipWs X = skipWs Y) :
    jloop (fuel+1) Option.none stack X = jloop (fuel+1) Option.none stack Y := by
  simp only [jloop, h]

theorem parseStrBody_jstring (k : String) (Y : List Char) :
    parseStrBody ((escBody k.toList ++ '"' :: Y).length + 1) (escBody k.toList ++ '"' :: Y) =
      .ok (k, Y) := by
  apply parseStrBody_run
  simp only [List.length_append, List.length_cons]
  omega

theorem digitChar_ne (d : Nat) (x : Char) (hx : x.isDigit = false) : digitChar d ≠ x := by
  intro he
  have hd := digitChar_isDigit d
  rw [he, hx] at hd
  exact Bool.false_ne_true hd

theorem digitChar_not_ws (d : Nat) : isWsChar (digitChar d) = false := by
  simp [isWsChar, digitChar_ne d ' ' (by decide), digitChar_ne d '\t' (by decide),
    digitChar_ne d '\n' (by decide), digitChar_ne d (Char.ofNat 13) (by decide)]

theorem jloop_step_str (s : String) (fuel : Nat) (stack : List JFrame) (cs : List Char) :
    jloop (fuel+1) Option.none stack (jstring s ++ cs) =
      jloop fuel (some (.str s)) stack cs := by
  rw [jstring_append s cs]
  simp only [jloop, skipWs_cons '"' _ (by decide)]
  rw [parseStrBody_run s cs _ (by simp only [List.length_append, List.length_cons]; omega)]
  simp

theorem jloop_step_parseNum (fuel : Nat) (stack : List JFrame) (arg cs : List Char) (v : PyVal)
    (hhead : (∃ r0, arg = '-' :: r0) ∨ (∃ d r0, arg = digitChar d :: r0))
    (hpn : parseNum arg = .ok (v, cs)) :
    jloop (fuel+1) Option.none stack arg = jloop fuel (some v) stack cs := by
  rcases hhead with ⟨r0, rfl⟩ | ⟨d, r0, rfl⟩
  · have hlb : ¬ ('-' = lbrace) := by decide
    simp only [jloop, skipWs_cons '-' _ (by decide)]
    simp [hpn, hlb]
  · simp only [jloop, skipWs_cons _ _ (digitChar_not_ws d)]
    simp [hpn, digitChar_ne d '"' (by decide), digitChar_ne d lbrace (by decide),
      digitChar_ne d '[' (by decide), digitChar_ne d 't' (by decide),
      digitChar_ne d 'f' (by decide), digitChar_ne d 'n' (by decide)]

theorem intChars_head (n : Int) :
    (∃ r0, intChars n = '-' :: r0) ∨ (∃ d r0, intChars n = digitChar d :: r0) := by
  obtain ⟨d, ds, _, hnc⟩ := natChars_shape n.natAbs
  by_cases hn : n < 0
  · left
    exact ⟨natChars n.natAbs, by simp [intChars, hn]⟩
  · right
    exact ⟨d, ds.map digitChar, by simp [intChars, hn, hnc]⟩

theorem floatChars_head (m : Int) (e : Nat) :
    (∃ r0, floatChars m e = '-' :: r0) ∨ (∃ d r0, floatChars m e = digitChar d :: r0) := by
  obtain ⟨d, ds, _, hnc⟩ := natChars_shape (m.natAbs / 10 ^ e)
  by_cases hn : m < 0
  · left
    exact ⟨natChars (m.natAbs / 10 ^ e) ++
      '.' :: ((natLEPad e (m.natAbs % 10 ^ e)).reverse.map digitChar),
      by simp [floatChars, hn]⟩
  · right
    exact ⟨d, ds.map digitChar ++
      '.' :: ((natLEPad e (m.natAbs % 10 ^ e)).reverse.map digitChar),
      by simp [floatChars, hn, hnc]⟩

theorem head_append (c : Char) (l r : List Char) (h : ∃ r0, l = c :: r0) :
    ∃ r0, l ++ r = c :: r0 := by
  obtain ⟨r0, rfl⟩ := h
  exact ⟨r0 ++ r, by simp⟩

theorem jloop_step_scalar (v : PyVal) (hv : scalarCanonB v = true) (fuel : Nat)
    (stack : List JFrame) (cs : List Char) (hstop : numStop cs) :
    jloop (fuel+1) Option.none stack (dumpsV v ++ cs) =
      jloop fuel (some v) stack cs := by
  cases v with
  | str s => exact jloop_step_str s fuel stack cs
  | int n =>
    apply jloop_step_parseNum fuel stack _ cs _ _ (parseNum_intChars n cs hstop)
    rcases intChars_head n with h | ⟨d, r0, hd⟩
    · exact Or.inl (head_append '-' _ cs h)
    · exact Or.inr ⟨d, _, (head_append (digitChar d) _ cs ⟨r0, hd⟩).choose_spec⟩
  | float m e =>
    apply jloop_step_parseNum fuel stack _ cs _ _
      (parseNum_floatChars m e (by simpa [scalarCanonB] using hv) cs hstop)
    rcases floatChars_head m e with h | ⟨d, r0, hd⟩
    · exact Or.inl (head_append '-' _ cs h)
    · exact Or.inr ⟨d, _, (head_append (digitChar d) _ cs ⟨r0, hd⟩).choose_spec⟩
  | bool b => simp [scalarCanonB] at hv
  | null => simp [scalarCanonB] at hv
  | list xs => simp [scalarCanonB] at hv
  | dict kvs => simp [scalarCanonB] at hv

theorem entriesTail_numStop (e : List (String × PyVal)) : numStop (entriesTail e) := by
  cases e with
  | nil =>
    show numStop [rbrace]
    refine ⟨by decide, by decide, by decide, by decide⟩
  | cons kv kvs =>
    show numStop (',' :: _)
    refine ⟨by decide, by decide, by decide, by decide⟩

theorem jloop_entries (e : List (String × PyVal)) :
    ∀ (acc : List (String × PyVal)) (k : String) (v : PyVal) (fuel : Nat),
      (∀ kv ∈ e, scalarCanonB kv.2 = true) →
      2 * e.length + 2 ≤ fuel →
      jloop fuel (some v) [JFrame.obj acc k] (entriesTail e) =
        .ok (.dict (acc.reverse ++ (k, v) :: e), []) := by
  induction e with
  | nil =>
    intro acc k v fuel hs hf
    obtain ⟨f, rfl⟩ : ∃ f, fuel = f + 1 + 1 := ⟨fuel - 2, by omega⟩
    have h1 : ¬ (rbrace = ',') := by decide
    simp only [entriesTail]
    simp only [jloop, skipWs_cons rbrace _ (by decide)]
    simp [h1, jloop, List.reverse_cons]
  | cons kv e ih =>
    intro acc k v fuel hs hf
    obtain ⟨k2, v2⟩ := kv
    obtain ⟨f, rfl⟩ : ∃ f, fuel = f + 1 := ⟨fuel - 1, by omega⟩
    have hentry : ((jstring k2 ++ ':' :: ' ' :: dumpsV v2) ++ entriesTail e) =
        '"' :: (escBody k2.toList ++ '"' :: (':' :: ' ' :: (dumpsV v2 ++ entriesTail e))) := by
      simp [jstring, List.append_assoc]
    simp only [entriesTail, hentry]
    simp only [jloop, skipWs_cons ',' _ (by decide)]
    simp only [if_pos rfl, skipWs_space, skipWs_cons '"' _ (by decide)]
    rw [parseStrBody_run k2 (':' :: ' ' :: (dumpsV v2 ++ entriesTail e)) _
      (by simp only [List.length_append, List.length_cons]; omega)]
    simp only [skipWs_cons ':' _ (by decide)]
    obtain ⟨g, rfl⟩ : ∃ g, f = g + 1 := ⟨f - 1, by simp at hf; omega⟩
    rw [jloop_none_congr g _ (' ' :: (dumpsV v2 ++ entriesTail e)) (dumpsV v2 ++ entriesTail e)
      (by rw [skipWs_space])]
    rw [jloop_step_scalar v2 (hs (k2, v2) (List.mem_cons_self _ _)) g _ _
      (entriesTail_numStop e)]
    rw [ih ((k, v) :: acc) k2 v2 g (fun x hx => hs x (List.mem_cons_of_mem _ hx))
      (by simp at hf; omega)]
    simp [List.reverse_cons, List.append_assoc]

theorem dumpsEntries_decomp (k : String) (v : PyVal) (e : List (String × PyVal)) :
    dumpsEntries ((k, v) :: e) ++ [rbrace] =
      jstring k ++ ':' :: ' ' :: (dumpsV v ++ entriesTail e) := by
  induction e generalizing k v with
  | nil =>
    show (jstring k ++ ':' :: ' ' :: dumpsV v) ++ [rbrace] = _
    simp [entriesTail, List.append_assoc]
  | cons kw e2 ih =>
    obtain ⟨kw1, kw2⟩ := kw
    show (jstring k ++ ':' :: ' ' :: dumpsV v ++ ',' :: ' ' :: dumpsEntries ((kw1, kw2) :: e2))
        ++ [rbrace] = _
    rw [List.append_assoc, List.append_assoc]
    simp only [List.cons_append]
    rw [ih kw1 kw2]
    simp [entriesTail, List.append_assoc]

theorem jloop_record (r : List (String × PyVal))
    (hr : ∀ kv ∈ r, scalarCanonB kv.2 = true) (fuel : Nat)
    (hf : 2 * r.length + 4 ≤ fuel) :
    jloop fuel Option.none [] (dumpsV (.dict r)) = .ok (.dict r, []) := by
  obtain ⟨f, rfl⟩ : ∃ f, fuel = f + 1 := ⟨fuel - 1, by omega⟩
  cases r with
  | nil =>
    obtain ⟨g, rfl⟩ : ∃ g, f = g + 1 := ⟨f - 1, by omega⟩
    have h1 : ¬ (lbrace = '"') := by decide
    show jloop (g + 1 + 1) Option.none [] (lbrace :: dumpsEntries [] ++ [rbrace]) = _
    simp only [dumpsEntries, List.nil_append, List.cons_append]
    simp only [jloop, skipWs_cons lbrace _ (by decide), skipWs_cons rbrace _ (by decide)]
    simp [h1, jloop]
  | cons kv e =>
    obtain ⟨k1, v1⟩ := kv
    have hform : dumpsV (.dict ((k1, v1) :: e)) =
        lbrace :: ('"' :: (escBody k1.toList ++ '"' :: (':' :: ' ' :: (dumpsV v1 ++ entriesTail e)))) := by
      show lbrace :: dumpsEntries ((k1, v1) :: e) ++ [rbrace] = _
      rw [List.cons_append, dumpsEntries_decomp k1 v1 e, jstring_append]
    rw [hform]
    have h1 : ¬ (lbrace = '"') := by decide
    have h2 : ¬ ('"' = rbrace) := by decide
    simp only [jloop, skipWs_cons lbrace _ (by decide), skipWs_cons '"' _ (by decide)]
    simp only [h1, h2, if_false, if_pos rfl]
    rw [parseStrBody_run k1 (':' :: ' ' :: (dumpsV v1 ++ entriesTail e)) _
      (by simp only [List.length_append, List.length_cons]; omega)]
    simp only [skipWs_cons ':' _ (by decide)]
    obtain ⟨g, rfl⟩ : ∃ g, f = g + 1 := ⟨f - 1, by simp at hf; omega⟩
    rw [jloop_none_congr g _ (' ' :: (dumpsV v1 ++ entriesTail e)) (dumpsV v1 ++ entriesTail e)
      (by rw [skipWs_space])]
    rw [jloop_step_scalar v1 (hr (k1, v1) (List.mem_cons_self _ _)) g _ _
      (entriesTail_numStop e)]
    rw [jloop_entries e [] k1 v1 g (fun x hx => hr x (List.mem_cons_of_mem _ hx))
      (by simp at hf; omega)]
    simp

theorem dumpsEntries_len (r : List (String × PyVal)) :
    r.length ≤ (dumpsEntries r).length := by
  induction r with
  | nil => simp [dumpsEntries]
  | cons kv t ih =>
    cases t with
    | nil =>
      show ([kv]).length ≤ (jstring kv.1 ++ ':' :: ' ' :: dumpsV kv.2).length
      simp [jstring]
    | cons kw t2 =>
      show (kv :: kw :: t2).length ≤
        (jstring kv.1 ++ ':' :: ' ' :: dumpsV kv.2 ++ ',' :: ' ' :: dumpsEntries (kw :: t2)).length
      simp only [List.length_cons, List.length_append, jstring] at *
      omega

theorem jsonLoads_jsonDumps_record (r : List (String × PyVal))
    (hr : ∀ kv ∈ r, scalarCanonB kv.2 = true) :
    jsonLoadsPy (jsonDumps (.dict r)) = .ok (.dict r) := by
  unfold jsonLoadsPy jsonDumps
  have hlist : (String.mk (dumpsV (.dict r))).toList = dumpsV (.dict r) := rfl
  have hlen1 : (String.mk (dumpsV (.dict r))).length = (dumpsV (.dict r)).length := rfl
  rw [hlist, hlen1]
  have hd2 : (dumpsV (.dict r)).length = (dumpsEntries r).length + 2 := by
    show (lbrace :: dumpsEntries r ++ [rbrace]).length = _
    simp
  have hb : 2 * r.length + 4 ≤ 2 * (dumpsV (.dict r)).length + 4 := by
    have h := dumpsEntries_len r
    omega
  rw [jloop_record r hr _ hb]
  simp [skipWs]

/- ### Lemmas: the Value Decoder -/

theorem decodeField_ok_of_ne_nil (vd : List (String × String)) (h : vd ≠ []) :
    ∃ v, decodeField vd = .ok v := by
  cases vd with
  | nil => exact absurd rfl h
  | cons hd rest =>
    obtain ⟨tag, raw⟩ := hd
    unfold decodeField
    by_cases ht : tag = "N"
    · by_cases hdot : '.' ∈ raw.data
      · rcases hp : pyFloatParse raw with _ | q
        · exact ⟨.str raw, by simp [ht, hdot, hp]⟩
        · exact ⟨.float q.1 q.2, by simp [ht, hdot, hp]⟩
      · rcases hp : pyIntParse raw with _ | n
        · exact ⟨.str raw, by simp [ht, hdot, hp]⟩
        · exact ⟨.int n, by simp [ht, hdot, hp]⟩
    · exact ⟨.str raw, by simp [ht]⟩

theorem decodeRecord_ok_of_wf (item : StoredItem) (h : ∀ p ∈ item, p.2 ≠ []) :
    ∃ r, decodeRecord item = .ok r := by
  induction item with
  | nil => exact ⟨[], rfl⟩
  | cons kv fs ih =>
    obtain ⟨k, vd⟩ := kv
    obtain ⟨v, hv⟩ := decodeField_ok_of_ne_nil vd (h (k, vd) (List.mem_cons_self _ _))
    obtain ⟨r, hr⟩ := ih (fun p hp => h p (List.mem_cons_of_mem _ hp))
    exact ⟨(k, v) :: r, by simp [decodeRecord, hv, hr]⟩

theorem decodeRecord_error_of_empty_tag (item : StoredItem)
    (h : ∃ p ∈ item, p.2 = []) :
    decodeRecord item = .error "list index out of range" := by
  induction item with
  | nil => simp at h
  | cons kv fs ih =>
    obtain ⟨k, vd⟩ := kv
    by_cases hvd : vd = []
    · subst hvd
      simp [decodeRecord, decodeField]
    · obtain ⟨v, hv⟩ := decodeField_ok_of_ne_nil vd hvd
      have htail : ∃ p ∈ fs, p.2 = [] := by
        rcases h with ⟨p, hp, hpe⟩
        rcases List.mem_cons.mp hp with rfl | hp2
        · exact absurd hpe hvd
        · exact ⟨p, hp2, hpe⟩
      simp [decodeRecord, hv, ih htail]

/- ### Claim theorems -/

/-- C4: the Value Decoder maps each field independently and
deterministically: a numeric-tagged payload without a decimal point
decodes via integer parse, one with a decimal point via floating-point
parse, a parse failure keeps the raw string, any other tag passes the raw
payload through, and the record decoder processes fields one at a time;
concretely, payload "10" gives the integer 10, "3.5" gives the float
3.5 (the canonical pair (35, 1)), and "abc" stays the string "abc". -/
theorem C4_decoder_field_rules :
    (∀ (tag raw : String) (rest : List (String × String)) (n : Int),
       tag = "N" → raw.toList.contains '.' = false → pyIntParse raw = some n →
       decodeField ((tag, raw) :: rest) = .ok (.int n)) ∧
    (∀ (tag raw : String) (rest : List (String × String)) (m : Int) (e : Nat),
       tag = "N" → raw.toList.contains '.' = true → pyFloatParse raw = some (m, e) →
       decodeField ((tag, raw) :: rest) = .ok (.float m e)) ∧
    (∀ (tag raw : String) (rest : List (String × String)),
       tag = "N" → raw.toList.contains '.' = false → pyIntParse raw = Option.none →
       decodeField ((tag, raw) :: rest) = .ok (.str raw)) ∧
    (∀ (tag raw : String) (rest : List (String × String)),
       tag = "N" → raw.toList.contains '.' = true → pyFloatParse raw = Option.none →
       decodeField ((tag, raw) :: rest) = .ok (.str raw)) ∧
    (∀ (tag raw : String) (rest : List (String × String)),
       tag ≠ "N" → decodeField ((tag, raw) :: rest) = .ok (.str raw)) ∧
    (decodeRecord [] = .ok []) ∧
    (∀ (k : String) (vd : List (String × String)) (fs : StoredItem) (v : PyVal)
       (r : List (String × PyVal)),
       decodeField vd = .ok v → decodeRecord fs = .ok r →
       decodeRecord ((k, vd) :: fs) = .ok ((k, v) :: r)) ∧
    decodeField [("N", "10")] = .ok (.int 10) ∧
    decodeField [("N", "3.5")] = .ok (.float 35 1) ∧
    decodeField [("N", "abc")] = .ok (.str "abc") := by
  refine ⟨?_, ?_, ?_, ?_, ?_, rfl, ?_, rfl, rfl, rfl⟩
  · intro tag raw rest n ht hdot hp
    have hd2 : ¬ ('.' ∈ raw.data) := by simpa using hdot
    simp [decodeField, ht, hd2, hp]
  · intro tag raw rest m e ht hdot hp
    have hd2 : '.' ∈ raw.data := by simpa using hdot
    simp [decodeField, ht, hd2, hp]
  · intro tag raw rest ht hdot hp
    have hd2 : ¬ ('.' ∈ raw.data) := by simpa using hdot
    simp [decodeField, ht, hd2, hp]
  · intro tag raw rest ht hdot hp
    have hd2 : '.' ∈ raw.data := by simpa using hdot
    simp [decodeField, ht, hd2, hp]
  · intro tag raw rest ht
    simp [decodeField, ht]
  · intro k vd fs v r hv hr
    simp [decodeRecord, hv, hr]

/-- Witness for C4 at concrete inputs: a non-numeric tag passes its raw
payload through. -/
theorem C4_decoder_field_rules_witness :
    decodeField [("S", "Ana")] = .ok (.str "Ana") :=
  C4_decoder_field_rules.2.2.2.2.1 "S" "Ana" [] (by decide)

/-- C9: encoding a decoded record (a flat mapping of field names to
integer, canonical-float, or string scalars) to a JSON string with
json.dumps and parsing it back with json.loads yields the same mapping:
same field names, same scalar types, same values. -/
theorem C9_json_round_trip (r : List (String × PyVal))
    (h : r.all (fun kv => scalarCanonB kv.2) = true) :
    jsonLoadsPy (jsonDumps (.dict r)) = .ok (.dict r) :=
  jsonLoads_jsonDumps_record r (by simpa [List.all_eq_true] using h)

/-- Witness for C9 at the record from the spec's success scenario. -/
theorem C9_json_round_trip_witness :
    jsonLoadsPy (jsonDumps (.dict [("empID", .int 12345), ("balance", .float 35 1),
      ("name", .str "Ana")])) =
      .ok (.dict [("empID", .int 12345), ("balance", .float 35 1), ("name", .str "Ana")]) :=
  C9_json_round_trip [("empID", .int 12345), ("balance", .float 35 1), ("name", .str "Ana")]
    (by decide)

/- ### Lemmas: the handler pipeline -/

theorem lambda_env_of_error (ev : Event) (store : Store) (e : String)
    (h : (handlerCore ev store).1 = .error e) :
    (lambda_handler ev store).1 =
      format_response ev (errObj ("Internal server error: " ++ e)) 500 := by
  unfold lambda_handler
  rw [h]

theorem lambda_env_of_ok (ev : Event) (store : Store) (env : PyVal)
    (h : (handlerCore ev store).1 = .ok env) :
    (lambda_handler ev store).1 = env := by
  unfold lambda_handler
  rw [h]

theorem lambda_trace (ev : Event) (store : Store) :
    (lambda_handler ev store).2 = (handlerCore ev store).2 := rfl

theorem handlerCore_cases (ev : Event) (store : Store) :
    (∃ e, (handlerCore ev store).1 = .error e) ∨
    (∃ b s, (handlerCore ev store).1 = .ok (format_response ev b s)) := by
  unfold handlerCore
  rcases hres : resolveId ev with e | uid
  · exact Or.inl ⟨e, rfl⟩
  · by_cases hdig : pyIsdigit uid = true
    · rcases hget : store.getItem uid with item | _ | m | m | m | m
      · by_cases hemp : item.isEmpty
        · exact Or.inr ⟨errObj "An unexpected error occurred while processing the leave balance data",
            500, by simp [hdig, hget, hemp]⟩
        · rcases hdec : decodeRecord item with e | r
          · exact Or.inl ⟨e, by simp [hdig, hget, hemp, hdec]⟩
          · exact Or.inr ⟨.dict r, 200, by simp [hdig, hget, hemp, hdec]⟩
      · exact Or.inr ⟨errObj ("Employee with ID " ++ uid ++ " not found in the leave balance database"),
          404, by simp [hdig, hget]⟩
      · exact Or.inr ⟨errObj "DynamoDB table leaveBalanceHRTable not found", 404,
          by simp [hdig, hget]⟩
      · exact Or.inr ⟨errObj "Database is currently experiencing high traffic. Please try again later.",
          429, by simp [hdig, hget]⟩
      · exact Or.inr ⟨errObj "The function does not have permission to access the leave balance database",
          403, by simp [hdig, hget]⟩
      · exact Or.inr ⟨errObj ("Failed to retrieve employee data: " ++ m), 500,
          by simp [hdig, hget]⟩
    · have hd2 : pyIsdigit uid = false := by
        cases h2 : pyIsdigit uid
        · rfl
        · exact absurd h2 hdig
      exact Or.inr ⟨errObj ("Invalid employee ID format: " ++ uid ++ ". Employee ID must be numeric."),
        400, by simp [hd2]⟩

/-- C1: for every inbound event and store state the handler returns a
well-formed envelope produced by the formatter for that event, and when
the handler body raises, the top-level catch converts the exception into
an Internal server error envelope with status 500 whose payload is the
single error string. -/
theorem C1_handler_total_and_catches (ev : Event) (store : Store) :
    (∃ body status, (lambda_handler ev store).1 = format_response ev body status) ∧
    (∀ e, (handlerCore ev store).1 = .error e →
      (lambda_handler ev store).1 =
        format_response ev (errObj ("Internal server error: " ++ e)) 500) := by
  constructor
  · rcases handlerCore_cases ev store with ⟨e, he⟩ | ⟨b, s, hb⟩
    · exact ⟨errObj ("Internal server error: " ++ e), 500, lambda_env_of_error ev store e he⟩
    · exact ⟨b, s, lambda_env_of_ok ev store _ hb⟩
  · intro e he
    exact lambda_env_of_error ev store e he

/-- Witness for C1: on an event with no identifier at all, the body
raises the ValueError and the handler returns the 500 envelope. -/
theorem C1_handler_total_and_catches_witness :
    (lambda_handler [("foo", PyVal.int 1)] storeMissing).1 =
      format_response [("foo", PyVal.int 1)]
        (errObj ("Internal server error: " ++ msgNotFound)) 500 :=
  (C1_handler_total_and_catches [("foo", PyVal.int 1)] storeMissing).2 msgNotFound rfl

/-- C2: after a validated identifier reaches the lookup, each store
outcome maps to its fixed envelope: no item gives 404 with the
employee-not-found payload, a missing table gives 404 with the
distinguished table message, throughput exhaustion gives 429, access
denial gives 403, any other failure gives 500 carrying the underlying
message, and a (well-formed, non-empty) found item gives 200 with the
decoded record. -/
theorem C2_lookup_outcome_classification (ev : Event) (store : Store) (uid : String)
    (hres : resolveId ev = .ok uid) (hdig : pyIsdigit uid = true) :
    (store.getItem uid = .missing →
      (lambda_handler ev store).1 = format_response ev
        (errObj ("Employee with ID " ++ uid ++ " not found in the leave balance database")) 404) ∧
    (∀ msg, store.getItem uid = .resourceNotFound msg →
      (lambda_handler ev store).1 = format_response ev
        (errObj "DynamoDB table leaveBalanceHRTable not found") 404) ∧
    (∀ msg, store.getItem uid = .throughputExceeded msg →
      (lambda_handler ev store).1 = format_response ev
        (errObj "Database is currently experiencing high traffic. Please try again later.") 429) ∧
    (∀ msg, store.getItem uid = .accessDenied msg →
      (lambda_handler ev store).1 = format_response ev
        (errObj "The function does not have permission to access the leave balance database") 403) ∧
    (∀ msg, store.getItem uid = .otherError msg →
      (lambda_handler ev store).1 = format_response ev
        (errObj ("Failed to retrieve employee data: " ++ msg)) 500) ∧
    (∀ item, store.getItem uid = .found item → item ≠ [] → (∀ p ∈ item, p.2 ≠ []) →
      ∃ readable, decodeRecord item = .ok readable ∧
        (lambda_handler ev store).1 = format_response ev (.dict readable) 200) := by
  refine ⟨?_, ?_, ?_, ?_, ?_, ?_⟩
  · intro hget
    exact lambda_env_of_ok ev store _ (by simp [handlerCore, hres, hdig, hget])
  · intro msg hget
    exact lambda_env_of_ok ev store _ (by simp [handlerCore, hres, hdig, hget])
  · intro msg hget
    exact lambda_env_of_ok ev store _ (by simp [handlerCore, hres, hdig, hget])
  · intro msg hget
    exact lambda_env_of_ok ev store _ (by simp [handlerCore, hres, hdig, hget])
  · intro msg hget
    exact lambda_env_of_ok ev store _ (by simp [handlerCore, hres, hdig, hget])
  · intro item hget hne hwf
    obtain ⟨readable, hdec⟩ := decodeRecord_ok_of_wf item hwf
    have hemp : item.isEmpty = false := by
      cases item
      · exact absurd rfl hne
      · rfl
    exact ⟨readable, hdec,
      lambda_env_of_ok ev store _ (by simp [handlerCore, hres, hdig, hget, hemp, hdec])⟩

/-- Witness for C2: identifier 12345 not present in the store yields the
404 employee-not-found envelope. -/
theorem C2_lookup_outcome_classification_witness :
    (lambda_handler [("empID", PyVal.str "12345")] storeMissing).1 =
      format_response [("empID", PyVal.str "12345")]
        (errObj "Employee with ID 12345 not found in the leave balance database") 404 :=
  (C2_lookup_outcome_classification [("empID", PyVal.str "12345")] storeMissing "12345"
    rfl (by decide)).1 rfl

/-- C3 counterexample: the resolved identifier consisting of the single
superscript-two character U+00B2 contains a character that is not a
decimal digit, yet str.isdigit accepts it (its Unicode Numeric_Type is
Digit), so the handler does not return 400 and get_item is invoked for
that invocation, against the claim. -/
theorem C3_counterexample_isdigit_accepts_superscript :
    resolveId sup2Event = .ok (String.mk [sup2]) ∧
    sup2 ∈ (String.mk [sup2]).data ∧ sup2.isDigit = false ∧
    pyCharIsdigit sup2 = true ∧
    envStatus ((lambda_handler sup2Event storeMissing).1) = .int 404 ∧
    ¬ envStatus ((lambda_handler sup2Event storeMissing).1) = .int 400 ∧
    StoreCall.getItemCall (String.mk [sup2]) ∈ (lambda_handler sup2Event storeMissing).2 := by
  refine ⟨rfl, by decide, by decide, by decide, rfl, ?_, ?_⟩
  · intro h
    rw [show envStatus ((lambda_handler sup2Event storeMissing).1) = .int 404 from rfl] at h
    have := PyVal.int.inj h
    omega
  · rw [show (lambda_handler sup2Event storeMissing).2 =
      [StoreCall.describeTable (.ok .null), StoreCall.scanSample 5 (.ok (.dict [])),
       StoreCall.getItemCall (String.mk [sup2])] from rfl]
    simp

/-- C3 amended: str.isdigit agrees with the decimal-digit test on ASCII
characters, so when the resolved identifier is an ASCII string one of
whose characters is not a decimal digit, the handler returns the 400
invalid-format envelope and get_item is never called in that invocation;
an identifier carrying a non-ASCII digit-class character such as
superscript two instead passes the isdigit check and reaches the lookup. -/
theorem C3_amended_ascii_nondigit_rejected (ev : Event) (store : Store) (uid : String)
    (c : Char) (hres : resolveId ev = .ok uid) (hascii : ∀ d ∈ uid.data, d.toNat < 128)
    (hc : c ∈ uid.data) (hcd : c.isDigit = false) :
    (lambda_handler ev store).1 =
      format_response ev
        (errObj ("Invalid employee ID format: " ++ uid ++ ". Employee ID must be numeric.")) 400 ∧
    ∀ key, StoreCall.getItemCall key ∉ (lambda_handler ev store).2 := by
  have hlt : c.toNat < 128 := hascii c hc
  have h1 : c.toNat ≠ 178 := by omega
  have h2 : c.toNat ≠ 179 := by omega
  have h3 : c.toNat ≠ 185 := by omega
  have h4 : ¬ (1632 ≤ c.toNat) := by omega
  have hchar : pyCharIsdigit c = false := by
    unfold pyCharIsdigit
    rw [hcd]
    simp [h1, h2, h3, h4]
  have hdig : pyIsdigit uid = false := by
    unfold pyIsdigit
    cases hall : uid.toList.all pyCharIsdigit with
    | true =>
      have := List.all_eq_true.mp hall c hc
      rw [hchar] at this
      exact absurd this (by decide)
    | false => simp
  have hcore : handlerCore ev store =
      (.ok (format_response ev
        (errObj ("Invalid employee ID format: " ++ uid ++ ". Employee ID must be numeric.")) 400),
       []) := by
    unfold handlerCore
    rw [hres]
    simp [hdig]
  constructor
  · exact lambda_env_of_ok ev store _ (by rw [hcore])
  · intro key hkey
    rw [lambda_trace, hcore] at hkey
    simp at hkey

/-- Witness for the amended C3: the ASCII identifier 12a yields 400 and
no get_item call. -/
theorem C3_amended_ascii_nondigit_rejected_witness :
    (lambda_handler [("empID", PyVal.str "12a")] storeMissing).1 =
      format_response [("empID", PyVal.str "12a")]
        (errObj "Invalid employee ID format: 12a. Employee ID must be numeric.") 400 :=
  (C3_amended_ascii_nondigit_rejected [("empID", PyVal.str "12a")] storeMissing "12a" 'a'
    rfl (by decide) (by decide) (by decide)).1

/-- C5 counterexample: on the empty event no identifier can be extracted,
and the handler returns a gateway envelope with status 500 (the internal
error path), not 400 as the claim states. -/
theorem C5_counterexample_missing_id_gives_500 :
    resolveId ([] : Event) = .error msgNotFound ∧
    envStatus ((lambda_handler [] storeMissing).1) = .int 500 ∧
    ¬ envStatus ((lambda_handler [] storeMissing).1) = .int 400 := by
  refine ⟨rfl, rfl, ?_⟩
  intro h
  rw [show envStatus ((lambda_handler [] storeMissing).1) = .int 500 from rfl] at h
  have := PyVal.int.inj h
  omega

/-- C5 amended: when extraction fails, the ValueError is re-raised and
caught only at the top level, so the handler returns the internal-error
envelope with status 500 (not a 400 client-error envelope), and no store
call is made. -/
theorem C5_amended_missing_id_internal_error (ev : Event) (store : Store) (e : String)
    (h : resolveId ev = .error e) :
    (lambda_handler ev store).1 =
      format_response ev (errObj ("Internal server error: " ++ e)) 500 ∧
    (lambda_handler ev store).2 = [] := by
  have hcore : handlerCore ev store = (.error e, []) := by
    unfold handlerCore
    rw [h]
  exact ⟨lambda_env_of_error ev store e (by rw [hcore]),
    by rw [lambda_trace, hcore]⟩

/-- Witness for the amended C5 at the empty event. -/
theorem C5_amended_missing_id_internal_error_witness :
    (lambda_handler [] storeMissing).1 =
      format_response [] (errObj ("Internal server error: " ++ msgNotFound)) 500 :=
  (C5_amended_missing_id_internal_error [] storeMissing msgNotFound rfl).1

/-- C6 counterexample: on an event whose requestBody has a content dict
without request-body properties while a body field carries empID 7, the
claim's resolution order (first shape yielding a value wins) produces the
identifier 7, but the code's elif skips the body branch entirely and
extraction fails. -/
theorem C6_counterexample_elif_skips_body :
    specResolveId cexEvent = .ok (some "7") ∧
    resolveId cexEvent = .error msgNotFound := ⟨rfl, rfl⟩

/-- C6 amended: the first branch short-circuits the others once it yields
a value; the body branch is gated by the requestBody-with-content guard
(an elif), not by whether the first branch yielded a value; the top-level
empID branch runs whenever no value was found so far; and the three event
shapes carrying the same value resolve to the same coerced string. -/
theorem C6_amended_resolution_order :
    (∀ (ev : Event) (v : PyVal), rbGuard ev = .ok true → rbValue ev = .ok v →
       v ≠ .null → pyStr v ≠ "" → resolveId ev = .ok (pyStr v)) ∧
    (∀ ev : Event, rbGuard ev = .ok true → rbValue ev = .ok .null →
       hasKey ev "empID" = false → resolveId ev = .error msgNotFound) ∧
    (∀ v : PyVal, v ≠ .null → pyStr v ≠ "" →
       resolveId (agentEvent v) = .ok (pyStr v) ∧
       resolveId (bodyEvent v) = .ok (pyStr v) ∧
       resolveId (topEvent v) = .ok (pyStr v)) := by
  refine ⟨?_, ?_, ?_⟩
  · intro ev v hg hv hnn hps
    cases v with
    | null => exact absurd rfl hnn
    | str s => simp [resolveId, extractRaw, hg, hv, Except.bind] at hps ⊢; simp [pyStr] at hps; simp [pyStr, hps]
    | int n => simp [resolveId, extractRaw, hg, hv, Except.bind, hps]
    | float m e => simp [resolveId, extractRaw, hg, hv, Except.bind, hps]
    | bool b => simp [resolveId, extractRaw, hg, hv, Except.bind, hps]
    | list xs => simp [resolveId, extractRaw, hg, hv, Except.bind, hps]
    | dict kvs => simp [resolveId, extractRaw, hg, hv, Except.bind, hps]
  · intro ev hg hv hno
    simp [resolveId, extractRaw, hg, hv, hno, Except.bind]
  · intro v hnn hps
    refine ⟨?_, ?_, ?_⟩ <;>
      cases v <;>
      first
        | exact absurd rfl hnn
        | simp [resolveId, extractRaw, rbGuard, rbValue, bodyValue, agentEvent, bodyEvent,
            topEvent, evGet, hasKey, pyContainsE, pyGetKey, pyDictGet, pyTruthy, pyLen,
            pyIndexZero, Except.bind, hps]

/-- Witness for the amended C6 at the value 7: all three shapes resolve to
the string 7. -/
theorem C6_amended_resolution_order_witness :
    resolveId (agentEvent (PyVal.int 7)) = .ok "7" ∧
    resolveId (bodyEvent (PyVal.int 7)) = .ok "7" ∧
    resolveId (topEvent (PyVal.int 7)) = .ok "7" := by
  have h := C6_amended_resolution_order.2.2 (PyVal.int 7) (by intro h; cases h) (by decide)
  exact ⟨h.1, h.2.1, h.2.2⟩

/-- C7: the formatter produces the agent action envelope (messageVersion
1.0, fields copied from the event with their defaults, payload JSON
nested under responseBody) exactly when the event carries both agent and
actionGroup, and the gateway envelope (status code, Content-Type header,
unconditional wildcard CORS header, JSON body string) otherwise; the
choice of shape depends only on the event, never on the payload or
status. -/
theorem C7_formatter_shape (ev : Event) (body : PyVal) (status : Nat) :
    ((hasKey ev "agent" && hasKey ev "actionGroup") = true →
      format_response ev body status =
        .dict [("messageVersion", .str "1.0"),
               ("response", .dict
                 [("actionGroup", evGetD ev "actionGroup" (.str "")),
                  ("apiPath", evGetD ev "apiPath" (.str "")),
                  ("httpMethod", evGetD ev "httpMethod" (.str "GET")),
                  ("httpStatusCode", .int (status : Int)),
                  ("responseBody", .dict [("application/json",
                     .dict [("body", .str (jsonDumps body))])])]),
               ("sessionAttributes", evGetD ev "sessionAttributes" (.dict [])),
               ("promptSessionAttributes", evGetD ev "promptSessionAttributes" (.dict []))]) ∧
    ((hasKey ev "agent" && hasKey ev "actionGroup") = false →
      format_response ev body status =
        .dict [("statusCode", .int (status : Int)),
               ("headers", .dict [("Content-Type", .str "application/json"),
                  ("Access-Control-Allow-Origin", .str "*")]),
               ("body", .str (jsonDumps body))]) ∧
    (∀ (b2 : PyVal) (s2 : Nat),
      envIsAgent (format_response ev body status) =
        envIsAgent (format_response ev b2 s2)) := by
  refine ⟨fun h => by simp [format_response, h], fun h => by simp [format_response, h], ?_⟩
  intro b2 s2
  cases h : (hasKey ev "agent" && hasKey ev "actionGroup") with
  | true => simp [format_response, h, envIsAgent]
  | false => simp [format_response, h, envIsAgent]

/-- Witness for C7 on a concrete agent event. -/
theorem C7_formatter_shape_witness :
    format_response [("agent", PyVal.str "a"), ("actionGroup", PyVal.str "g")]
      (errObj "x") 200 =
      .dict [("messageVersion", .str "1.0"),
             ("response", .dict
               [("actionGroup", evGetD [("agent", PyVal.str "a"), ("actionGroup", PyVal.str "g")]
                   "actionGroup" (.str "")),
                ("apiPath", evGetD [("agent", PyVal.str "a"), ("actionGroup", PyVal.str "g")]
                   "apiPath" (.str "")),
                ("httpMethod", evGetD [("agent", PyVal.str "a"), ("actionGroup", PyVal.str "g")]
                   "httpMethod" (.str "GET")),
                ("httpStatusCode", .int (200 : Int)),
                ("responseBody", .dict [("application/json",
                   .dict [("body", .str (jsonDumps (errObj "x")))])])]),
             ("sessionAttributes", evGetD [("agent", PyVal.str "a"), ("actionGroup", PyVal.str "g")]
                "sessionAttributes" (.dict [])),
             ("promptSessionAttributes", evGetD [("agent", PyVal.str "a"),
                ("actionGroup", PyVal.str "g")] "promptSessionAttributes" (.dict []))] :=
  (C7_formatter_shape [("agent", PyVal.str "a"), ("actionGroup", PyVal.str "g")]
    (errObj "x") 200).1 rfl

/-- C8: the envelope the handler returns is identical whether the
diagnostic describe-table and scan probes succeed or fail: two stores
that agree on get_item produce the same envelope on every event. -/
theorem C8_probe_independence (ev : Event) (s1 s2 : Store)
    (h : s1.getItem = s2.getItem) :
    (lambda_handler ev s1).1 = (lambda_handler ev s2).1 := by
  have hcore : (handlerCore ev s1).1 = (handlerCore ev s2).1 := by
    unfold handlerCore
    rw [h]
    rcases hres : resolveId ev with e | uid
    · rfl
    · by_cases hdig : pyIsdigit uid = true
      · rcases hget : s2.getItem uid with item | _ | m | m | m | m
        · by_cases hemp : item.isEmpty
          · simp [hdig, hget, hemp]
          · rcases hdec : decodeRecord item with e | r <;> simp [hdig, hget, hemp, hdec]
        · simp [hdig, hget]
        · simp [hdig, hget]
        · simp [hdig, hget]
        · simp [hdig, hget]
        · simp [hdig, hget]
      · have hd2 : pyIsdigit uid = false := by
          cases h2 : pyIsdigit uid
          · rfl
          · exact absurd h2 hdig
        simp [hd2]
  unfold lambda_handler
  rw [hcore]

/-- Witness for C8: a store with failing probes and one with succeeding
probes, agreeing on get_item, give the same envelope. -/
theorem C8_probe_independence_witness :
    (lambda_handler [("empID", PyVal.str "9")] storeMissingProbesFail).1 =
      (lambda_handler [("empID", PyVal.str "9")] storeMissing).1 :=
  C8_probe_independence [("empID", PyVal.str "9")] storeMissingProbesFail storeMissing rfl

/-- C10: the decoder inspects only the first tag of a tagged-value dict
and ignores any others; an empty tagged-value dict raises IndexError,
which only the top-level handler catches, producing the 500
internal-error envelope instead of a decoded record. -/
theorem C10_first_tag_only_and_empty_tag_raises :
    (∀ (t1 p1 : String) (rest : List (String × String)),
       decodeField ((t1, p1) :: rest) = decodeField [(t1, p1)]) ∧
    (decodeField ([] : List (String × String)) = .error "list index out of range") ∧
    (∀ (ev : Event) (store : Store) (uid : String) (item : StoredItem),
       resolveId ev = .ok uid → pyIsdigit uid = true →
       store.getItem uid = .found item → (∃ p ∈ item, p.2 = []) →
       (lambda_handler ev store).1 =
         format_response ev (errObj "Internal server error: list index out of range") 500) := by
  refine ⟨fun t1 p1 rest => rfl, rfl, ?_⟩
  intro ev store uid item hres hdig hget hemp
  have hne : item.isEmpty = false := by
    rcases hemp with ⟨p, hp, _⟩
    cases item
    · simp at hp
    · rfl
  have hdec := decodeRecord_error_of_empty_tag item hemp
  have hcore : (handlerCore ev store).1 = .error "list index out of range" := by
    simp [handlerCore, hres, hdig, hget, hne, hdec]
  exact lambda_env_of_error ev store _ hcore

/-- Witness for C10: a found item with an empty tagged-value dict yields
the 500 internal-error envelope. -/
theorem C10_first_tag_only_and_empty_tag_raises_witness :
    (lambda_handler [("empID", PyVal.str "77")] storeEmptyTag).1 =
      format_response [("empID", PyVal.str "77")]
        (errObj "Internal server error: list index out of range") 500 :=
  C10_first_tag_only_and_empty_tag_raises.2.2 [("empID", PyVal.str "77")] storeEmptyTag "77"
    [("empID", [("N", "77")]), ("bad", [])] rfl (by decide) rfl
    ⟨("bad", []), by simp, rfl⟩

end ETA
